import Mathlib

/-!
# goboxer users: selective payloads, change tracking and response handling

A shallow embedding of `users.go` (and of the `Response` record of
`response.go`).  Pointers are `Option`s (`none` is the nil pointer), a
nil-pointer dereference is the outcome `none` of the function that performs
it, `(value, error)` results are `Except GoError value`, and a method with a
pointer receiver that writes to the receiver returns the receiver it leaves
behind.
-/

namespace Goboxer

/-! ## Values exchanged with the outside -/

/-- A Go byte slice. -/
abbrev Bytes := List UInt8

/-- A Go `error` value that is not nil: either made here by `errors.New`, or
made by a collaborator (transport, decoder, encoder). -/
inductive GoError where
  | errorsNew (text : String)
  | foreign (origin : String) (detail : String)
  deriving DecidableEq, Repr

/-- A JSON document as `encoding/json` emits it.  `raw` is the text returned
by a type's own `MarshalJSON`, copied into the output as it is. -/
inductive JSON where
  | null
  | bool (b : Bool)
  | num (n : Int)
  | str (s : String)
  | raw (text : String)
  | arr (items : List JSON)
  | obj (members : List (String × JSON))

/-- The double quote character, as text. -/
def dquote : String := String.singleton (Char.ofNat 34)

/-- States of the `encoding/json` scanner while it is inside a string
literal: plain, after a backslash, inside a `\u` escape with that many hex
digits still to come, or failed. -/
inductive ScanState where
  | inString
  | inStringEsc
  | inStringEscU (todo : Nat)
  | failed
  deriving DecidableEq, Repr

/-- Hexadecimal digit test of the scanner. -/
def isHexDigit (c : Char) : Bool :=
  (48 ≤ c.toNat && c.toNat ≤ 57) || (97 ≤ c.toNat && c.toNat ≤ 102) ||
    (65 ≤ c.toNat && c.toNat ≤ 70)

/-- One step of the scanner inside a string literal.  A bare double quote
(34) closes the literal, which is a failure here because the text that
`MarshalJSON` appends afterwards is a further double quote. -/
def scanStep (s : ScanState) (c : Char) : ScanState :=
  match s with
  | .inString =>
    if c.toNat = 34 then .failed
    else if c.toNat = 92 then .inStringEsc
    else if c.toNat < 32 then .failed
    else .inString
  | .inStringEsc =>
    if c.toNat = 98 ∨ c.toNat = 102 ∨ c.toNat = 110 ∨ c.toNat = 114 ∨ c.toNat = 116 ∨
        c.toNat = 92 ∨ c.toNat = 47 ∨ c.toNat = 34 then .inString
    else if c.toNat = 117 then .inStringEscU 4
    else .failed
  | .inStringEscU todo =>
    if isHexDigit c then (if todo ≤ 1 then .inString else .inStringEscU (todo - 1))
    else .failed
  | .failed => .failed

/-- Whether the text made of a double quote, `s` and a double quote is a well-formed JSON string literal: the scanner,
started inside the literal, is back in the plain state when the closing quote
arrives. -/
def validQuoted (s : String) : Bool :=
  decide (s.toList.foldl scanStep ScanState.inString = ScanState.inString)

/-- The `MarshalJSON` of `*UserStatus`, `*UserRole` and `*EnterpriseType` on
a pointer that is not nil: the string between two double quotes, unescaped.
`json.Marshal` checks a marshaler's output and fails when it is not valid
JSON.  `raw` holds the text as `MarshalJSON` returns it; `json.Marshal` then
writes the characters `<`, `>`, `&`, U+2028 and U+2029 of that text as
`\u` escapes, which gives other bytes for the same JSON value. -/
def marshalQuoted (s : String) : Except GoError JSON :=
  if validQuoted s then .ok (.raw (dquote ++ s ++ dquote))
  else .error (.foreign "json.Marshal" "MarshalJSON returned invalid JSON")

/-! ## Data model -/

/-- A `time.Time`, known here only through its `MarshalJSON`: the quoted
RFC 3339 text, or no text when the year is outside 0..9999 and `MarshalJSON`
fails. -/
structure Time where
  rfc3339 : Option String
  deriving DecidableEq, Repr

/-- A `map[string]string`: `none` is the nil map, otherwise the entries in
the order of their keys, the order in which `encoding/json` writes them. -/
abbrev StringMap := Option (List (String × String))

/-- The `Enterprise` struct. -/
structure Enterprise where
  Type_ : String := ""
  Id : String := ""
  Name : String := ""
  deriving DecidableEq, Repr

/-- Modelled from the spec: the embedded struct `UserGroupMini` is declared
outside the files at hand.  Its members are the first four names of
`UserAllFields`; `Name` and `Login` are `*string` (the setters store the
address of a string in them), and all four are left out of the JSON text when
nil, as the create scenario of the spec requires. -/
structure UserGroupMini where
  Type_ : Option String := none
  ID : Option String := none
  Name : Option String := none
  Login : Option String := none
  deriving DecidableEq, Repr

/-- The exported members of `User`, the ones `encoding/json` reads and
writes.  A slice with `omitempty` is a list: the nil slice and the empty
slice both have length 0, which is all that `omitempty` looks at.  `MyTags`
is a pointer to a slice, where nil pointer, nil slice and empty slice all
differ. -/
structure UserFields extends UserGroupMini where
  CreatedAt : Option Time := none
  ModifiedAt : Option Time := none
  Language : Option String := none
  Timezone : Option String := none
  SpaceAmount : Int := 0
  SpaceUsed : Int := 0
  MaxUploadSize : Int := 0
  Status : Option String := none
  JobTitle : Option String := none
  Phone : Option String := none
  Address : Option String := none
  AvatarUrl : Option String := none
  Role : Option String := none
  TrackingCodes : List StringMap := []
  CanSeeManagedUsers : Option Bool := none
  IsSyncEnabled : Option Bool := none
  IsExternalCollabRestricted : Option Bool := none
  IsExemptFromDeviceLimits : Option Bool := none
  IsExemptFromLoginVerification : Option Bool := none
  Enterprise : Option Enterprise := none
  MyTags : Option (Option (List String)) := none
  Hostname : Option String := none
  IsPlatformAccessOnly : Option Bool := none
  ExternalAppUserId : Option String := none
  deriving DecidableEq, Repr

/-- Modelled from the spec: `ApiConn` is declared outside the files at hand;
the code reads its `BaseURL` only. -/
structure ApiConn where
  BaseURL : String
  deriving DecidableEq, Repr

/-- The `apiInfo` struct: a pointer to the connection. -/
structure apiInfo where
  api : Option ApiConn
  deriving DecidableEq, Repr

/-- The `User` struct: the exported members, the unexported `apiInfo`
(tagged `json:"-"`) and the unexported `changeFlag` (a `uint64`). -/
structure User extends UserFields where
  apiInfo : Option apiInfo := none
  changeFlag : Nat := 0
  deriving DecidableEq, Repr

/-! ## Change bits -/

def cUserName : Nat := 1 <<< 0
def cUserRole : Nat := 1 <<< 1
def cUserLanguage : Nat := 1 <<< 2
def cUserIsSyncEnabled : Nat := 1 <<< 3
def cUserJobTitle : Nat := 1 <<< 4
def cUserPhone : Nat := 1 <<< 5
def cUserAddress : Nat := 1 <<< 6
def cUserSpaceAmount : Nat := 1 <<< 7
def cUserTrackingCodes : Nat := 1 <<< 8
def cUserCanSeeMangedUsers : Nat := 1 <<< 9
def cUserTimezone : Nat := 1 <<< 10
def cUserIsExemptFromDeviceLimits : Nat := 1 <<< 11
def cUserIsExemptFromLoginVerification : Nat := 1 <<< 12
def cUserIsExternalCollabRestricted : Nat := 1 <<< 13
def cUserStatus : Nat := 1 <<< 14
def cUserIsPasswordResetRequired : Nat := 1 <<< 15
def cUserIsPlatformAccessOnly : Nat := 1 <<< 16

/-- NewUser: a zero `User` holding a fresh `apiInfo` for the connection. -/
def NewUser (api : Option ApiConn) : User :=
  { apiInfo := some { api := api } }

/-- The chain `u.apiInfo.api` followed by a read of the connection: `none`
when either pointer is nil, where the Go code stops with a nil-pointer
dereference. -/
def User.conn (u : User) : Option ApiConn :=
  match u.apiInfo with
  | none => none
  | some info => info.api

/-! ## Encoding a user -/

/-- An `omitempty` member of pointer-to-string type. -/
def encString (v : Option String) : Option (Except GoError JSON) :=
  v.map (fun s => .ok (.str s))

/-- An `omitempty` member of pointer-to-bool type. -/
def encBool (v : Option Bool) : Option (Except GoError JSON) :=
  v.map (fun b => .ok (.bool b))

/-- An `omitempty` member whose pointer type has its own `MarshalJSON`. -/
def encQuoted (v : Option String) : Option (Except GoError JSON) :=
  v.map marshalQuoted

/-- An `omitempty` member of type `*time.Time`. -/
def encTime (v : Option Time) : Option (Except GoError JSON) :=
  v.map (fun t =>
    match t.rfc3339 with
    | some text => .ok (.str text)
    | none => .error (.foreign "json.Marshal" "Time.MarshalJSON: year outside of range"))

/-- An `omitempty` integer member: left out when it is 0. -/
def encInt (n : Int) : Option (Except GoError JSON) :=
  if n = 0 then none else some (.ok (.num n))

/-- One `map[string]string`. -/
def encStringMap (m : StringMap) : JSON :=
  match m with
  | none => .null
  | some entries => .obj (entries.map (fun kv => (kv.1, JSON.str kv.2)))

/-- The `omitempty` member `tracking_codes`: left out when the slice has
length 0. -/
def encTrackingCodes (codes : List StringMap) : Option (Except GoError JSON) :=
  if codes.length = 0 then none else some (.ok (.arr (codes.map encStringMap)))

/-- The `omitempty` member `enterprise`; the struct has no tags, so its keys
are the Go names, and `Type` goes through `MarshalJSON`. -/
def encEnterprise (v : Option Enterprise) : Option (Except GoError JSON) :=
  v.map (fun e =>
    match marshalQuoted e.Type_ with
    | .ok t => .ok (.obj [("Type", t), ("Id", .str e.Id), ("Name", .str e.Name)])
    | .error err => .error err)

/-- The `omitempty` member `my_tags`, a pointer to a slice. -/
def encMyTags (v : Option (Option (List String))) : Option (Except GoError JSON) :=
  v.map (fun tags =>
    match tags with
    | none => .ok .null
    | some l => .ok (.arr (l.map JSON.str)))

/-- The members of a `User` in the order of the struct, each with its JSON
key: `none` when `omitempty` leaves the member out, otherwise the outcome of
its encoder.  `apiInfo` and `changeFlag` have no entry. -/
def userMembers (u : UserFields) : List (String × Option (Except GoError JSON)) :=
  [ ("type", encString u.Type_),
    ("id", encString u.ID),
    ("name", encString u.Name),
    ("login", encString u.Login),
    ("created_at", encTime u.CreatedAt),
    ("modified_at", encTime u.ModifiedAt),
    ("language", encString u.Language),
    ("timezone", encString u.Timezone),
    ("space_amount", encInt u.SpaceAmount),
    ("space_used", encInt u.SpaceUsed),
    ("max_upload_size", encInt u.MaxUploadSize),
    ("status", encQuoted u.Status),
    ("job_title", encString u.JobTitle),
    ("phone", encString u.Phone),
    ("address", encString u.Address),
    ("avatar_url", encString u.AvatarUrl),
    ("role", encQuoted u.Role),
    ("tracking_codes", encTrackingCodes u.TrackingCodes),
    ("can_see_managed_users", encBool u.CanSeeManagedUsers),
    ("is_sync_enabled", encBool u.IsSyncEnabled),
    ("is_external_collab_restricted", encBool u.IsExternalCollabRestricted),
    ("is_exempt_from_device_limits", encBool u.IsExemptFromDeviceLimits),
    ("is_exempt_from_login_verification", encBool u.IsExemptFromLoginVerification),
    ("enterprise", encEnterprise u.Enterprise),
    ("my_tags", encMyTags u.MyTags),
    ("hostname", encString u.Hostname),
    ("is_platform_access_only", encBool u.IsPlatformAccessOnly),
    ("external_app_user_id", encString u.ExternalAppUserId) ]

/-- The struct encoder: writes the members that are not left out, in order,
and stops at the first encoder that fails. -/
def collectMembers :
    List (String × Option (Except GoError JSON)) → Except GoError (List (String × JSON))
  | [] => .ok []
  | (_, none) :: rest => collectMembers rest
  | (_, some (.error e)) :: _ => .error e
  | (k, some (.ok j)) :: rest =>
    match collectMembers rest with
    | .ok ms => .ok ((k, j) :: ms)
    | .error e => .error e

/-- The call `json.Marshal` on a `*User`. -/
def jsonMarshalUser (u : User) : Except GoError (List (String × JSON)) :=
  collectMembers (userMembers u.toUserFields)

/-! ## Requests -/

inductive Method where
  | GET
  | POST
  | PUT
  | DELETE
  deriving DecidableEq, Repr

/-- The body handed to `NewRequest`: the nil reader, a reader over no bytes
(the bytes of a `json.Marshal` that failed), or a reader over the JSON text
of an object. -/
inductive Body where
  | absent
  | empty
  | object (members : List (String × JSON))

/-- The reader `bytes.NewReader(bodyBytes)` over the result of `json.Marshal`,
whose error the builders do not act upon. -/
def bytesReader (marshalled : Except GoError (List (String × JSON))) : Body :=
  match marshalled with
  | .ok ms => .object ms
  | .error _ => .empty

/-- The value sent under a key of the payload, if the key is sent. -/
def Body.member (b : Body) (key : String) : Option JSON :=
  match b with
  | .object ms => ms.lookup key
  | _ => none

/-- The keys sent in the payload, in order. -/
def Body.keys (b : Body) : List String :=
  match b with
  | .object ms => ms.map Prod.fst
  | _ => []

/-- Modelled from the spec: `Request` and `NewRequest` are declared outside
the files at hand.  A request envelope is the connection, the method, the
absolute URL and the optional body; the builders pass nil headers. -/
structure Request where
  api : ApiConn
  Url : String
  Method : Method
  Body : Body

/-- Modelled from the spec: the constructor `NewRequest(api, url, method, nil, body)`. -/
def NewRequest (api : ApiConn) (url : String) (method : Method) (body : Body) : Request :=
  { api := api, Url := url, Method := method, Body := body }

/-! ## Setters

Each setter writes to its receiver and returns it; here it returns the
receiver after the write. -/

def User.SetLogin (u : User) (login : String) : User :=
  { u with Login := some login }

def User.SetName (u : User) (name : String) : User :=
  { u with Name := some name, changeFlag := u.changeFlag ||| cUserName }

def User.SetRole (u : User) (role : String) : User :=
  { u with Role := some role, changeFlag := u.changeFlag ||| cUserRole }

def User.SetLanguage (u : User) (language : String) : User :=
  { u with Language := some language, changeFlag := u.changeFlag ||| cUserLanguage }

def User.SetIsSyncEnabled (u : User) (isSyncEnabled : Bool) : User :=
  { u with IsSyncEnabled := some isSyncEnabled, changeFlag := u.changeFlag ||| cUserIsSyncEnabled }

def User.SetJobTitle (u : User) (jobTitle : String) : User :=
  { u with JobTitle := some jobTitle, changeFlag := u.changeFlag ||| cUserJobTitle }

def User.SetPhone (u : User) (phone : String) : User :=
  { u with Phone := some phone, changeFlag := u.changeFlag ||| cUserPhone }

def User.SetAddress (u : User) (address : String) : User :=
  { u with Address := some address, changeFlag := u.changeFlag ||| cUserAddress }

def User.SetSpaceAmount (u : User) (spaceAmount : Int) : User :=
  { u with SpaceAmount := spaceAmount, changeFlag := u.changeFlag ||| cUserSpaceAmount }

def User.SetTrackingCodes (u : User) (trackingCodes : List StringMap) : User :=
  { u with TrackingCodes := trackingCodes, changeFlag := u.changeFlag ||| cUserTrackingCodes }

def User.SetCanSeeManagedUsers (u : User) (canSeeManagedUsers : Bool) : User :=
  { u with CanSeeManagedUsers := some canSeeManagedUsers, changeFlag := u.changeFlag ||| cUserCanSeeMangedUsers }

def User.SetTimezone (u : User) (timezone : String) : User :=
  { u with Timezone := some timezone, changeFlag := u.changeFlag ||| cUserTimezone }

def User.SetIsExemptFromDeviceLimits (u : User) (isExemptFromDeviceLimits : Bool) : User :=
  { u with IsExemptFromDeviceLimits := some isExemptFromDeviceLimits, changeFlag := u.changeFlag ||| cUserIsExemptFromDeviceLimits }

def User.SetIsExemptFromLoginVerification (u : User) (isExemptFromLoginVerification : Bool) : User :=
  { u with IsExemptFromLoginVerification := some isExemptFromLoginVerification, changeFlag := u.changeFlag ||| cUserIsExemptFromLoginVerification }

def User.SetIsExternalCollabRestricted (u : User) (isExternalCollabRestricted : Bool) : User :=
  { u with IsExternalCollabRestricted := some isExternalCollabRestricted, changeFlag := u.changeFlag ||| cUserIsExternalCollabRestricted }

def User.SetStatus (u : User) (status : String) : User :=
  { u with Status := some status, changeFlag := u.changeFlag ||| cUserStatus }

/-! ## Request builders -/

/-- What a method with a pointer receiver leaves behind: the receiver after
the call, and what the call returned. -/
structure Call (α : Type) where
  receiver : User
  result : α

/-- The text `query` of the builders that add the question mark only in
front of a projection that is not empty. -/
def optionalQuery (fieldsParams : String) : String :=
  if fieldsParams ≠ "" then "?" ++ fieldsParams else ""

/-- The value `data` that `CreateUserReq` fills in and encodes: a zero
`User` that receives `Login` and `Name`, and each tracked member whose
change bit is set in the receiver. -/
def User.createUserData (u : User) : User :=
  let data : User := {}
  let data := { data with Login := u.Login }
  let data := { data with Name := u.Name }
  let data := if u.changeFlag &&& cUserRole = cUserRole then { data with Role := u.Role } else data
  let data := if u.changeFlag &&& cUserLanguage = cUserLanguage then { data with Language := u.Language } else data
  let data := if u.changeFlag &&& cUserIsSyncEnabled = cUserIsSyncEnabled then { data with IsSyncEnabled := u.IsSyncEnabled } else data
  let data := if u.changeFlag &&& cUserJobTitle = cUserJobTitle then { data with JobTitle := u.JobTitle } else data
  let data := if u.changeFlag &&& cUserPhone = cUserPhone then { data with Phone := u.Phone } else data
  let data := if u.changeFlag &&& cUserAddress = cUserAddress then { data with Address := u.Address } else data
  let data := if u.changeFlag &&& cUserSpaceAmount = cUserSpaceAmount then { data with SpaceAmount := u.SpaceAmount } else data
  let data := if u.changeFlag &&& cUserTrackingCodes = cUserTrackingCodes then { data with TrackingCodes := u.TrackingCodes } else data
  let data := if u.changeFlag &&& cUserCanSeeMangedUsers = cUserCanSeeMangedUsers then { data with CanSeeManagedUsers := u.CanSeeManagedUsers } else data
  let data := if u.changeFlag &&& cUserTimezone = cUserTimezone then { data with Timezone := u.Timezone } else data
  let data := if u.changeFlag &&& cUserIsExemptFromDeviceLimits = cUserIsExemptFromDeviceLimits then { data with IsExemptFromDeviceLimits := u.IsExemptFromDeviceLimits } else data
  let data := if u.changeFlag &&& cUserIsExemptFromLoginVerification = cUserIsExemptFromLoginVerification then { data with IsExemptFromLoginVerification := u.IsExemptFromLoginVerification } else data
  let data := if u.changeFlag &&& cUserIsExternalCollabRestricted = cUserIsExternalCollabRestricted then { data with IsExternalCollabRestricted := u.IsExternalCollabRestricted } else data
  let data := if u.changeFlag &&& cUserStatus = cUserStatus then { data with Status := u.Status } else data
  data

/-- CreateUserReq.  `buildFields` is `BuildFieldsQueryParams`, a function
declared outside the files at hand. -/
def User.CreateUserReq (buildFields : List String → String) (u : User)
    (fields : List String) : Option (Call Request) :=
  match u.conn with
  | none => none
  | some api =>
    let url := api.BaseURL ++ "users"
    let query := optionalQuery (buildFields fields)
    let bodyBytes := jsonMarshalUser u.createUserData
    some ⟨u, NewRequest api (url ++ query) .POST (bytesReader bodyBytes)⟩

/-- GetCurrentUserReq. -/
def User.GetCurrentUserReq (buildFields : List String → String) (u : User)
    (fields : List String) : Option (Call Request) :=
  match u.conn with
  | none => none
  | some api =>
    let url := api.BaseURL ++ "users/me"
    let query := optionalQuery (buildFields fields)
    some ⟨u, NewRequest api (url ++ query) .GET .absent⟩

/-- GetUserReq. -/
def User.GetUserReq (buildFields : List String → String) (u : User) (userId : String)
    (fields : List String) : Option (Call Request) :=
  match u.conn with
  | none => none
  | some api =>
    let url := api.BaseURL ++ "users/" ++ userId
    let query := optionalQuery (buildFields fields)
    some ⟨u, NewRequest api (url ++ query) .GET .absent⟩

/-- UpdateUserReq: the body is the encoding of the receiver itself. -/
def User.UpdateUserReq (buildFields : List String → String) (u : User) (userId : String)
    (fields : List String) : Option (Call Request) :=
  match u.conn with
  | none => none
  | some api =>
    let url := api.BaseURL ++ "users/" ++ userId ++ "?" ++ buildFields fields
    let bodyBytes := jsonMarshalUser u
    some ⟨u, NewRequest api url .PUT (bytesReader bodyBytes)⟩

/-- CreateAppUserReq: stores the address of `true` in the receiver's
`IsPlatformAccessOnly`, then encodes the receiver. -/
def User.CreateAppUserReq (buildFields : List String → String) (u : User)
    (fields : List String) : Option (Call Request) :=
  match u.conn with
  | none => none
  | some api =>
    let url := api.BaseURL ++ "users/" ++ "?" ++ buildFields fields
    let u := { u with IsPlatformAccessOnly := some true }
    let bodyBytes := jsonMarshalUser u
    some ⟨u, NewRequest api url .POST (bytesReader bodyBytes)⟩

/-- The verb `%t` of `fmt.Sprintf`. -/
def fmtBool (b : Bool) : String :=
  if b then "true" else "false"

/-- The verb `%d` of `fmt.Sprintf`. -/
def fmtInt (n : Int) : String :=
  toString n

/-- DeleteUserReq. -/
def User.DeleteUserReq (u : User) (userId : String) (notify force : Bool) : Option (Call Request) :=
  match u.conn with
  | none => none
  | some api =>
    let url := api.BaseURL ++ "users/" ++ userId ++ "?notify=" ++ fmtBool notify ++
      "&force=" ++ fmtBool force
    some ⟨u, NewRequest api url .DELETE .absent⟩

/-- GetEnterpriseUsersReq; `offset` and `limit` are `int32`. -/
def User.GetEnterpriseUsersReq (buildFields : List String → String) (u : User)
    (filterTerm : String) (offset limit : Int) (fields : List String) : Option (Call Request) :=
  match u.conn with
  | none => none
  | some api =>
    let url := api.BaseURL ++ "users" ++ "?filter_term=" ++ filterTerm ++ "&offset=" ++
      fmtInt offset ++ "&limit=" ++ fmtInt limit ++ "&" ++ buildFields fields
    some ⟨u, NewRequest api url .GET .absent⟩

/-! ## Operations -/

/-- The `Response` struct.  `Body` is a byte slice, as `users.go` uses it
(it hands `resp.Body` to `json.Unmarshal`); `response.go` declares it as an
`io.ReadCloser`. -/
structure Response where
  Request : Option Request := none
  ContentType : String := ""
  Headers : List (String × List String) := []
  Body : Bytes := []
  ResponseCode : Int := 0
  RTTInMillis : Int := 0

def StatusOK : Int := 200
def StatusCreated : Int := 201
def StatusNoContent : Int := 204

/-- The anonymous struct that `GetEnterpriseUsers` decodes into.  An entry of
`[]*User` is nil where the JSON text has `null`, and otherwise points to a new
`User` of which the decoder has written exported members only. -/
structure UsersPage where
  TotalCount : Int := 0
  Entries : List (Option UserFields) := []
  Offset : Int := 0
  Limit : Int := 0

/-- The collaborators of `users.go`, none of which is in the files at hand.
`Send` is the transport executor of the spec: an error for a transport
failure, otherwise the response, whatever its status code.
`newApiStatusError` is, by the spec, the failure built from the body of a
response whose status does not match; it is an error value, never nil.  The
three decoders go through `encoding/json`, which writes the exported members
of its target and nothing else: they receive the exported members the target
holds and return the ones it holds afterwards. -/
structure Env where
  BuildFieldsQueryParams : List String → String
  Send : Request → Except GoError Response
  newApiStatusError : Bytes → GoError
  UnmarshalJSONWrapper : Bytes → UserFields → Except GoError UserFields
  jsonUnmarshalUser : Bytes → UserFields → Except GoError UserFields
  jsonUnmarshalUsers : Bytes → Except GoError UsersPage

/-- A decoder run on the target `r`: on success `r` with its exported
members replaced, `apiInfo` and `changeFlag` as they were. -/
def decodeInto (decoder : Bytes → UserFields → Except GoError UserFields) (body : Bytes)
    (r : User) : Except GoError User :=
  match decoder body r.toUserFields with
  | .ok decoded => .ok { r with toUserFields := decoded }
  | .error err => .error err

/-- GetCurrentUser. -/
def User.GetCurrentUser (env : Env) (u : User) (fields : List String) :
    Option (Call (Except GoError User)) :=
  match u.GetCurrentUserReq env.BuildFieldsQueryParams fields with
  | none => none
  | some ⟨u, req⟩ =>
    match env.Send req with
    | .error err => some ⟨u, .error err⟩
    | .ok resp =>
      if resp.ResponseCode ≠ StatusOK then
        some ⟨u, .error (env.newApiStatusError resp.Body)⟩
      else
        match u.apiInfo with
        | none => none
        | some info =>
          let r : User := { apiInfo := some { api := info.api } }
          some ⟨u, decodeInto env.UnmarshalJSONWrapper resp.Body r⟩

/-- GetUser. -/
def User.GetUser (env : Env) (u : User) (userId : String) (fields : List String) :
    Option (Call (Except GoError User)) :=
  match u.GetUserReq env.BuildFieldsQueryParams userId fields with
  | none => none
  | some ⟨u, req⟩ =>
    match env.Send req with
    | .error err => some ⟨u, .error err⟩
    | .ok resp =>
      if resp.ResponseCode ≠ StatusOK then
        some ⟨u, .error (env.newApiStatusError resp.Body)⟩
      else
        match u.apiInfo with
        | none => none
        | some info =>
          let r : User := { apiInfo := some { api := info.api } }
          some ⟨u, decodeInto env.UnmarshalJSONWrapper resp.Body r⟩

/-- CreateUser. -/
def User.CreateUser (env : Env) (u : User) (fields : List String) :
    Option (Call (Except GoError User)) :=
  match u.CreateUserReq env.BuildFieldsQueryParams fields with
  | none => none
  | some ⟨u, req⟩ =>
    match env.Send req with
    | .error err => some ⟨u, .error err⟩
    | .ok resp =>
      if resp.ResponseCode ≠ StatusCreated then
        some ⟨u, .error (env.newApiStatusError resp.Body)⟩
      else
        match u.apiInfo with
        | none => none
        | some info =>
          let r : User := { apiInfo := some { api := info.api } }
          some ⟨u, decodeInto env.UnmarshalJSONWrapper resp.Body r⟩

/-- UpdateUser. -/
def User.UpdateUser (env : Env) (u : User) (userId : String) (fields : List String) :
    Option (Call (Except GoError User)) :=
  match u.UpdateUserReq env.BuildFieldsQueryParams userId fields with
  | none => none
  | some ⟨u, req⟩ =>
    match env.Send req with
    | .error err => some ⟨u, .error err⟩
    | .ok resp =>
      if resp.ResponseCode ≠ StatusOK then
        some ⟨u, .error (.errorsNew "faild to update user info")⟩
      else
        match u.apiInfo with
        | none => none
        | some info =>
          let r : User := { apiInfo := some { api := info.api } }
          some ⟨u, decodeInto env.jsonUnmarshalUser resp.Body r⟩

/-- CreateAppUser. -/
def User.CreateAppUser (env : Env) (u : User) (fields : List String) :
    Option (Call (Except GoError User)) :=
  match u.CreateAppUserReq env.BuildFieldsQueryParams fields with
  | none => none
  | some ⟨u, req⟩ =>
    match env.Send req with
    | .error err => some ⟨u, .error err⟩
    | .ok resp =>
      if resp.ResponseCode ≠ StatusCreated then
        some ⟨u, .error (.errorsNew "faild to create app user")⟩
      else
        match u.apiInfo with
        | none => none
        | some info =>
          let r : User := { apiInfo := some { api := info.api } }
          some ⟨u, decodeInto env.jsonUnmarshalUser resp.Body r⟩

/-- DeleteUser: the `error` it returns, `.ok ()` for nil. -/
def User.DeleteUser (env : Env) (u : User) (userId : String) (notify force : Bool) :
    Option (Call (Except GoError Unit)) :=
  match u.DeleteUserReq userId notify force with
  | none => none
  | some ⟨u, req⟩ =>
    match env.Send req with
    | .error err => some ⟨u, .error err⟩
    | .ok resp =>
      if resp.ResponseCode ≠ StatusNoContent then
        some ⟨u, .error (.errorsNew "faild to delete user")⟩
      else
        some ⟨u, .ok ()⟩

/-- The loop of `GetEnterpriseUsers` over the decoded entries: each entry
receives a fresh `apiInfo` for the receiver's connection.  Reading
`u.apiInfo.api` through a nil `apiInfo` and writing through a nil entry are
nil-pointer dereferences. -/
def attachApiInfo (u : User) : List (Option User) → Option (List User)
  | [] => some []
  | entry :: rest =>
    match u.apiInfo with
    | none => none
    | some info =>
      match entry with
      | none => none
      | some user =>
        match attachApiInfo u rest with
        | none => none
        | some users => some ({ user with apiInfo := some { api := info.api } } :: users)

/-- What `GetEnterpriseUsers` returns besides the error. -/
structure UsersResult where
  outUsers : List User
  outOffset : Int
  outLimit : Int
  outTotalCount : Int

/-- GetEnterpriseUsers. -/
def User.GetEnterpriseUsers (env : Env) (u : User) (filterTerm : String) (offset limit : Int)
    (fields : List String) : Option (Call (Except GoError UsersResult)) :=
  match u.GetEnterpriseUsersReq env.BuildFieldsQueryParams filterTerm offset limit fields with
  | none => none
  | some ⟨u, req⟩ =>
    match env.Send req with
    | .error err => some ⟨u, .error err⟩
    | .ok resp =>
      if resp.ResponseCode ≠ StatusOK then
        some ⟨u, .error (.errorsNew "faild to get enterprise users info")⟩
      else
        match env.jsonUnmarshalUsers resp.Body with
        | .error err => some ⟨u, .error err⟩
        | .ok users =>
          let entries : List (Option User) :=
            users.Entries.map (Option.map (fun decoded => { toUserFields := decoded }))
          match attachApiInfo u entries with
          | none => none
          | some outUsers =>
            some ⟨u, .ok ⟨outUsers, users.Offset, users.Limit, users.TotalCount⟩⟩

/-! ## Vocabulary of the properties -/

/-- The optional members that have a setter with a change bit and that
`CreateUserReq` copies under that bit. -/
inductive TrackedField where
  | role
  | language
  | isSyncEnabled
  | jobTitle
  | phone
  | address
  | spaceAmount
  | trackingCodes
  | canSeeManagedUsers
  | timezone
  | isExemptFromDeviceLimits
  | isExemptFromLoginVerification
  | isExternalCollabRestricted
  | status
  deriving DecidableEq, Repr

/-- The change bit that the setter of the member sets and that `CreateUserReq`
tests. -/
def TrackedField.flag : TrackedField → Nat
  | .role => cUserRole
  | .language => cUserLanguage
  | .isSyncEnabled => cUserIsSyncEnabled
  | .jobTitle => cUserJobTitle
  | .phone => cUserPhone
  | .address => cUserAddress
  | .spaceAmount => cUserSpaceAmount
  | .trackingCodes => cUserTrackingCodes
  | .canSeeManagedUsers => cUserCanSeeMangedUsers
  | .timezone => cUserTimezone
  | .isExemptFromDeviceLimits => cUserIsExemptFromDeviceLimits
  | .isExemptFromLoginVerification => cUserIsExemptFromLoginVerification
  | .isExternalCollabRestricted => cUserIsExternalCollabRestricted
  | .status => cUserStatus

/-- The position of the change bit. -/
def TrackedField.bit : TrackedField → Nat
  | .role => 1
  | .language => 2
  | .isSyncEnabled => 3
  | .jobTitle => 4
  | .phone => 5
  | .address => 6
  | .spaceAmount => 7
  | .trackingCodes => 8
  | .canSeeManagedUsers => 9
  | .timezone => 10
  | .isExemptFromDeviceLimits => 11
  | .isExemptFromLoginVerification => 12
  | .isExternalCollabRestricted => 13
  | .status => 14

/-- The JSON key of the member, from its struct tag. -/
def TrackedField.key : TrackedField → String
  | .role => "role"
  | .language => "language"
  | .isSyncEnabled => "is_sync_enabled"
  | .jobTitle => "job_title"
  | .phone => "phone"
  | .address => "address"
  | .spaceAmount => "space_amount"
  | .trackingCodes => "tracking_codes"
  | .canSeeManagedUsers => "can_see_managed_users"
  | .timezone => "timezone"
  | .isExemptFromDeviceLimits => "is_exempt_from_device_limits"
  | .isExemptFromLoginVerification => "is_exempt_from_login_verification"
  | .isExternalCollabRestricted => "is_external_collab_restricted"
  | .status => "status"

/-- The entry of the member in the table `userMembers`: left out, or the
outcome of its encoder. -/
def TrackedField.entry (u : UserFields) : TrackedField → Option (Except GoError JSON)
  | .role => encQuoted u.Role
  | .language => encString u.Language
  | .isSyncEnabled => encBool u.IsSyncEnabled
  | .jobTitle => encString u.JobTitle
  | .phone => encString u.Phone
  | .address => encString u.Address
  | .spaceAmount => encInt u.SpaceAmount
  | .trackingCodes => encTrackingCodes u.TrackingCodes
  | .canSeeManagedUsers => encBool u.CanSeeManagedUsers
  | .timezone => encString u.Timezone
  | .isExemptFromDeviceLimits => encBool u.IsExemptFromDeviceLimits
  | .isExemptFromLoginVerification => encBool u.IsExemptFromLoginVerification
  | .isExternalCollabRestricted => encBool u.IsExternalCollabRestricted
  | .status => encQuoted u.Status

/-- The JSON keys of the members that have no setter. -/
def untrackedKeys : List String :=
  ["created_at", "modified_at", "space_used", "max_upload_size", "avatar_url", "enterprise",
    "my_tags", "hostname", "is_platform_access_only", "external_app_user_id"]

/-- One call of a setter, with its argument. -/
inductive SetterCall where
  | SetLogin (login : String)
  | SetName (name : String)
  | SetRole (v : String)
  | SetLanguage (v : String)
  | SetIsSyncEnabled (v : Bool)
  | SetJobTitle (v : String)
  | SetPhone (v : String)
  | SetAddress (v : String)
  | SetSpaceAmount (v : Int)
  | SetTrackingCodes (v : List StringMap)
  | SetCanSeeManagedUsers (v : Bool)
  | SetTimezone (v : String)
  | SetIsExemptFromDeviceLimits (v : Bool)
  | SetIsExemptFromLoginVerification (v : Bool)
  | SetIsExternalCollabRestricted (v : Bool)
  | SetStatus (v : String)

/-- The call made on a receiver. -/
def SetterCall.apply (u : User) : SetterCall → User
  | .SetLogin v => u.SetLogin v
  | .SetName v => u.SetName v
  | .SetRole v => u.SetRole v
  | .SetLanguage v => u.SetLanguage v
  | .SetIsSyncEnabled v => u.SetIsSyncEnabled v
  | .SetJobTitle v => u.SetJobTitle v
  | .SetPhone v => u.SetPhone v
  | .SetAddress v => u.SetAddress v
  | .SetSpaceAmount v => u.SetSpaceAmount v
  | .SetTrackingCodes v => u.SetTrackingCodes v
  | .SetCanSeeManagedUsers v => u.SetCanSeeManagedUsers v
  | .SetTimezone v => u.SetTimezone v
  | .SetIsExemptFromDeviceLimits v => u.SetIsExemptFromDeviceLimits v
  | .SetIsExemptFromLoginVerification v => u.SetIsExemptFromLoginVerification v
  | .SetIsExternalCollabRestricted v => u.SetIsExternalCollabRestricted v
  | .SetStatus v => u.SetStatus v

/-- The tracked member whose setter is called, if it is one of them. -/
def SetterCall.field : SetterCall → Option TrackedField
  | .SetLogin _ => none
  | .SetName _ => none
  | .SetRole _ => some .role
  | .SetLanguage _ => some .language
  | .SetIsSyncEnabled _ => some .isSyncEnabled
  | .SetJobTitle _ => some .jobTitle
  | .SetPhone _ => some .phone
  | .SetAddress _ => some .address
  | .SetSpaceAmount _ => some .spaceAmount
  | .SetTrackingCodes _ => some .trackingCodes
  | .SetCanSeeManagedUsers _ => some .canSeeManagedUsers
  | .SetTimezone _ => some .timezone
  | .SetIsExemptFromDeviceLimits _ => some .isExemptFromDeviceLimits
  | .SetIsExemptFromLoginVerification _ => some .isExemptFromLoginVerification
  | .SetIsExternalCollabRestricted _ => some .isExternalCollabRestricted
  | .SetStatus _ => some .status

/-- Whether the call is a call of `SetName`. -/
def SetterCall.isSetName : SetterCall → Bool
  | .SetName _ => true
  | _ => false

/-- A receiver after a sequence of setter calls, made in order. -/
def runSetters (u : User) (calls : List SetterCall) : User :=
  calls.foldl SetterCall.apply u

/-- The value found under a key of the encoded object, read off the member table. -/
def entryValue (e : Option (Option (Except GoError JSON))) : Option JSON :=
  match e with
  | some (some (.ok j)) => some j
  | _ => none

/-- A user for examples: fetched earlier, with members populated and no
change bit set. -/
def fetchedUser : User :=
  { ID := some "17", Name := some "Ann", Login := some "ann@example.com",
    Language := some "en", Timezone := some "Europe/Paris", SpaceAmount := 5000,
    Status := some "active", Role := some "user", Phone := some "555",
    Hostname := some "https://example.app.box.com/",
    apiInfo := some { api := some { BaseURL := "https://api.box.com/2.0/" } } }

/-- The projection builder used in examples: no projection. -/
def noProjection : List String → String :=
  fun _ => ""

/-- The bits that a setter call sets in `changeFlag`: none for `SetLogin`,
which has no change bit. -/
def SetterCall.mask (c : SetterCall) : Nat :=
  match c.field with
  | some F => F.flag
  | none => if c.isSetName then cUserName else 0

/-- The connection used in examples. -/
def exampleConn : ApiConn :=
  { BaseURL := "https://api.box.com/2.0/" }

/-- What an operation returns besides the error: one user, a page of users,
or nothing. -/
inductive Returned where
  | user (r : User)
  | users (r : UsersResult)
  | nothing

/-- The operations of `users.go`, each with its arguments. -/
inductive Op where
  | GetCurrentUser (fields : List String)
  | GetUser (userId : String) (fields : List String)
  | CreateUser (fields : List String)
  | UpdateUser (userId : String) (fields : List String)
  | CreateAppUser (fields : List String)
  | DeleteUser (userId : String) (notify force : Bool)
  | GetEnterpriseUsers (filterTerm : String) (offset limit : Int) (fields : List String)

/-- The outcome of a call with what it returned put into `Returned`. -/
def Call.returning {α : Type} (wrap : α → Returned) (c : Call (Except GoError α)) :
    Call (Except GoError Returned) :=
  match c with
  | ⟨receiver, .ok a⟩ => ⟨receiver, .ok (wrap a)⟩
  | ⟨receiver, .error err⟩ => ⟨receiver, .error err⟩

/-- The operation run on a receiver. -/
def Op.run (env : Env) (u : User) : Op → Option (Call (Except GoError Returned))
  | .GetCurrentUser fields => (u.GetCurrentUser env fields).map (Call.returning .user)
  | .GetUser userId fields => (u.GetUser env userId fields).map (Call.returning .user)
  | .CreateUser fields => (u.CreateUser env fields).map (Call.returning .user)
  | .UpdateUser userId fields => (u.UpdateUser env userId fields).map (Call.returning .user)
  | .CreateAppUser fields => (u.CreateAppUser env fields).map (Call.returning .user)
  | .DeleteUser userId notify force =>
    (u.DeleteUser env userId notify force).map (Call.returning (fun _ => .nothing))
  | .GetEnterpriseUsers filterTerm offset limit fields =>
    (u.GetEnterpriseUsers env filterTerm offset limit fields).map (Call.returning .users)

/-- The request builder that the operation starts with. -/
def Op.request (env : Env) (u : User) : Op → Option (Call Request)
  | .GetCurrentUser fields => u.GetCurrentUserReq env.BuildFieldsQueryParams fields
  | .GetUser userId fields => u.GetUserReq env.BuildFieldsQueryParams userId fields
  | .CreateUser fields => u.CreateUserReq env.BuildFieldsQueryParams fields
  | .UpdateUser userId fields => u.UpdateUserReq env.BuildFieldsQueryParams userId fields
  | .CreateAppUser fields => u.CreateAppUserReq env.BuildFieldsQueryParams fields
  | .DeleteUser userId notify force => u.DeleteUserReq userId notify force
  | .GetEnterpriseUsers filterTerm offset limit fields =>
    u.GetEnterpriseUsersReq env.BuildFieldsQueryParams filterTerm offset limit fields

/-- The status code that the operation compares the response with. -/
def Op.successCode : Op → Int
  | .GetCurrentUser _ => StatusOK
  | .GetUser _ _ => StatusOK
  | .CreateUser _ => StatusCreated
  | .UpdateUser _ _ => StatusOK
  | .CreateAppUser _ => StatusCreated
  | .DeleteUser _ _ _ => StatusNoContent
  | .GetEnterpriseUsers _ _ _ _ => StatusOK

/-- The decoder that a single-resource operation runs on the body; the two
other operations have none. -/
def Op.decoder (env : Env) : Op → Option (Bytes → UserFields → Except GoError UserFields)
  | .GetCurrentUser _ => some env.UnmarshalJSONWrapper
  | .GetUser _ _ => some env.UnmarshalJSONWrapper
  | .CreateUser _ => some env.UnmarshalJSONWrapper
  | .UpdateUser _ _ => some env.jsonUnmarshalUser
  | .CreateAppUser _ => some env.jsonUnmarshalUser
  | .DeleteUser _ _ _ => none
  | .GetEnterpriseUsers _ _ _ _ => none

/-- A decoder for examples: fails on the empty body, and otherwise writes an
id and a space amount into its target. -/
def stubDecoder (body : Bytes) (r : UserFields) : Except GoError UserFields :=
  if body.length = 0 then .error (.foreign "json" "unexpected end of JSON input")
  else .ok { r with ID := some "17", SpaceAmount := 5000 }

/-- A page decoder for examples: fails on the empty body, and otherwise
yields a page of two users out of 150. -/
def stubPageDecoder (body : Bytes) : Except GoError UsersPage :=
  if body.length = 0 then .error (.foreign "json" "unexpected end of JSON input")
  else .ok { TotalCount := 150, Entries := [some { ID := some "1" }, some { ID := some "2" }],
             Offset := 0, Limit := 2 }

/-- Collaborators for examples: the transport answers every request with
`reply`, and the status error records the length of the body. -/
def stubEnv (reply : Except GoError Response) : Env :=
  { BuildFieldsQueryParams := noProjection
    Send := fun _ => reply
    newApiStatusError := fun body => .foreign "ApiStatusError" (toString body.length)
    UnmarshalJSONWrapper := stubDecoder
    jsonUnmarshalUser := stubDecoder
    jsonUnmarshalUsers := stubPageDecoder }

/-- Modelled from the spec: `BuildFieldsQueryParams` is declared outside the
files at hand.  By the spec a list of names that is not empty gives `fields=`
followed by the names joined by commas, in order, and the empty list gives
the empty text. -/
def specBuildFields (fields : List String) : String :=
  if fields = [] then "" else "fields=" ++ ",".intercalate fields

/-- The question mark, the character that starts a query string. -/
def questionMark : Char := Char.ofNat 63

/-- The seventeen change-bit constants, in the order of their declaration. -/
def changeBits : List Nat :=
  [cUserName, cUserRole, cUserLanguage, cUserIsSyncEnabled, cUserJobTitle, cUserPhone,
    cUserAddress, cUserSpaceAmount, cUserTrackingCodes, cUserCanSeeMangedUsers, cUserTimezone,
    cUserIsExemptFromDeviceLimits, cUserIsExemptFromLoginVerification,
    cUserIsExternalCollabRestricted, cUserStatus, cUserIsPasswordResetRequired,
    cUserIsPlatformAccessOnly]

/-- The name of the setter that is called. -/
def SetterCall.setterName : SetterCall → String
  | .SetLogin _ => "SetLogin"
  | .SetName _ => "SetName"
  | .SetRole _ => "SetRole"
  | .SetLanguage _ => "SetLanguage"
  | .SetIsSyncEnabled _ => "SetIsSyncEnabled"
  | .SetJobTitle _ => "SetJobTitle"
  | .SetPhone _ => "SetPhone"
  | .SetAddress _ => "SetAddress"
  | .SetSpaceAmount _ => "SetSpaceAmount"
  | .SetTrackingCodes _ => "SetTrackingCodes"
  | .SetCanSeeManagedUsers _ => "SetCanSeeManagedUsers"
  | .SetTimezone _ => "SetTimezone"
  | .SetIsExemptFromDeviceLimits _ => "SetIsExemptFromDeviceLimits"
  | .SetIsExemptFromLoginVerification _ => "SetIsExemptFromLoginVerification"
  | .SetIsExternalCollabRestricted _ => "SetIsExternalCollabRestricted"
  | .SetStatus _ => "SetStatus"

/-- A page for examples: 25 users out of 150, from offset 0 with limit 25. -/
def examplePage : UsersPage :=
  { TotalCount := 150, Entries := List.replicate 25 (some { Language := some "en" }),
    Offset := 0, Limit := 25 }

/-! ## The operations over a transport with state

The same operations once more, now with the transport as an object that has a
state of its own (the network, a log, a counter), so that each call of `Send`
shows in the state, and with the values of the Go `return` statements written
out: a nil user next to an error, a user next to a nil error. -/

/-- A transport with state: `Send` answers a request and moves the state on. -/
structure Transport (σ : Type) where
  Send : Request → σ → Except GoError Response × σ

/-- The pair `(*User, error)` that a single-resource operation returns. -/
structure UserReturn where
  user : Option User
  err : Option GoError

/-- The five values that `GetEnterpriseUsers` returns; the nil slice is the
empty list. -/
structure UsersReturn where
  outUsers : List User
  outOffset : Int
  outLimit : Int
  outTotalCount : Int
  err : Option GoError

/-- GetCurrentUser, over a transport with state. -/
def User.GetCurrentUserVia {σ : Type} (env : Env) (t : Transport σ) (u : User) (fields : List String)
    (s : σ) : Option (Call UserReturn × σ) :=
  match u.GetCurrentUserReq env.BuildFieldsQueryParams fields with
  | none => none
  | some ⟨u, req⟩ =>
    match t.Send req s with
    | (.error err, s) => some (⟨u, ⟨none, some err⟩⟩, s)
    | (.ok resp, s) =>
      if resp.ResponseCode ≠ StatusOK then
        some (⟨u, ⟨none, some (env.newApiStatusError resp.Body)⟩⟩, s)
      else
        match u.apiInfo with
        | none => none
        | some info =>
          let r : User := { apiInfo := some { api := info.api } }
          match decodeInto env.UnmarshalJSONWrapper resp.Body r with
          | .error err => some (⟨u, ⟨none, some err⟩⟩, s)
          | .ok r => some (⟨u, ⟨some r, none⟩⟩, s)

/-- GetUser, over a transport with state. -/
def User.GetUserVia {σ : Type} (env : Env) (t : Transport σ) (u : User) (userId : String) (fields : List String)
    (s : σ) : Option (Call UserReturn × σ) :=
  match u.GetUserReq env.BuildFieldsQueryParams userId fields with
  | none => none
  | some ⟨u, req⟩ =>
    match t.Send req s with
    | (.error err, s) => some (⟨u, ⟨none, some err⟩⟩, s)
    | (.ok resp, s) =>
      if resp.ResponseCode ≠ StatusOK then
        some (⟨u, ⟨none, some (env.newApiStatusError resp.Body)⟩⟩, s)
      else
        match u.apiInfo with
        | none => none
        | some info =>
          let r : User := { apiInfo := some { api := info.api } }
          match decodeInto env.UnmarshalJSONWrapper resp.Body r with
          | .error err => some (⟨u, ⟨none, some err⟩⟩, s)
          | .ok r => some (⟨u, ⟨some r, none⟩⟩, s)

/-- CreateUser, over a transport with state. -/
def User.CreateUserVia {σ : Type} (env : Env) (t : Transport σ) (u : User) (fields : List String)
    (s : σ) : Option (Call UserReturn × σ) :=
  match u.CreateUserReq env.BuildFieldsQueryParams fields with
  | none => none
  | some ⟨u, req⟩ =>
    match t.Send req s with
    | (.error err, s) => some (⟨u, ⟨none, some err⟩⟩, s)
    | (.ok resp, s) =>
      if resp.ResponseCode ≠ StatusCreated then
        some (⟨u, ⟨none, some (env.newApiStatusError resp.Body)⟩⟩, s)
      else
        match u.apiInfo with
        | none => none
        | some info =>
          let r : User := { apiInfo := some { api := info.api } }
          match decodeInto env.UnmarshalJSONWrapper resp.Body r with
          | .error err => some (⟨u, ⟨none, some err⟩⟩, s)
          | .ok r => some (⟨u, ⟨some r, none⟩⟩, s)

/-- UpdateUser, over a transport with state. -/
def User.UpdateUserVia {σ : Type} (env : Env) (t : Transport σ) (u : User) (userId : String) (fields : List String)
    (s : σ) : Option (Call UserReturn × σ) :=
  match u.UpdateUserReq env.BuildFieldsQueryParams userId fields with
  | none => none
  | some ⟨u, req⟩ =>
    match t.Send req s with
    | (.error err, s) => some (⟨u, ⟨none, some err⟩⟩, s)
    | (.ok resp, s) =>
      if resp.ResponseCode ≠ StatusOK then
        some (⟨u, ⟨none, some (.errorsNew "faild to update user info")⟩⟩, s)
      else
        match u.apiInfo with
        | none => none
        | some info =>
          let r : User := { apiInfo := some { api := info.api } }
          match decodeInto env.jsonUnmarshalUser resp.Body r with
          | .error err => some (⟨u, ⟨none, some err⟩⟩, s)
          | .ok r => some (⟨u, ⟨some r, none⟩⟩, s)

/-- CreateAppUser, over a transport with state. -/
def User.CreateAppUserVia {σ : Type} (env : Env) (t : Transport σ) (u : User) (fields : List String)
    (s : σ) : Option (Call UserReturn × σ) :=
  match u.CreateAppUserReq env.BuildFieldsQueryParams fields with
  | none => none
  | some ⟨u, req⟩ =>
    match t.Send req s with
    | (.error err, s) => some (⟨u, ⟨none, some err⟩⟩, s)
    | (.ok resp, s) =>
      if resp.ResponseCode ≠ StatusCreated then
        some (⟨u, ⟨none, some (.errorsNew "faild to create app user")⟩⟩, s)
      else
        match u.apiInfo with
        | none => none
        | some info =>
          let r : User := { apiInfo := some { api := info.api } }
          match decodeInto env.jsonUnmarshalUser resp.Body r with
          | .error err => some (⟨u, ⟨none, some err⟩⟩, s)
          | .ok r => some (⟨u, ⟨some r, none⟩⟩, s)

/-- DeleteUser, over a transport with state: the `error` it returns. -/
def User.DeleteUserVia {σ : Type} (t : Transport σ) (u : User) (userId : String)
    (notify force : Bool) (s : σ) : Option (Call (Option GoError) × σ) :=
  match u.DeleteUserReq userId notify force with
  | none => none
  | some ⟨u, req⟩ =>
    match t.Send req s with
    | (.error err, s) => some (⟨u, some err⟩, s)
    | (.ok resp, s) =>
      if resp.ResponseCode ≠ StatusNoContent then
        some (⟨u, some (.errorsNew "faild to delete user")⟩, s)
      else
        some (⟨u, none⟩, s)

/-- GetEnterpriseUsers, over a transport with state. -/
def User.GetEnterpriseUsersVia {σ : Type} (env : Env) (t : Transport σ) (u : User)
    (filterTerm : String) (offset limit : Int) (fields : List String) (s : σ) :
    Option (Call UsersReturn × σ) :=
  match u.GetEnterpriseUsersReq env.BuildFieldsQueryParams filterTerm offset limit fields with
  | none => none
  | some ⟨u, req⟩ =>
    match t.Send req s with
    | (.error err, s) => some (⟨u, ⟨[], 0, 0, 0, some err⟩⟩, s)
    | (.ok resp, s) =>
      if resp.ResponseCode ≠ StatusOK then
        some (⟨u, ⟨[], 0, 0, 0, some (.errorsNew "faild to get enterprise users info")⟩⟩, s)
      else
        match env.jsonUnmarshalUsers resp.Body with
        | .error err => some (⟨u, ⟨[], 0, 0, 0, some err⟩⟩, s)
        | .ok users =>
          let entries : List (Option User) :=
            users.Entries.map (Option.map (fun decoded => { toUserFields := decoded }))
          match attachApiInfo u entries with
          | none => none
          | some outUsers =>
            some (⟨u, ⟨outUsers, users.Offset, users.Limit, users.TotalCount, none⟩⟩, s)

/-- The values of a Go `return` statement of an operation. -/
inductive GoReturn where
  | user (r : UserReturn)
  | users (r : UsersReturn)
  | error (err : Option GoError)

/-- The receiver and the state kept, the returned values put into `GoReturn`. -/
def viaReturn {α σ : Type} (wrap : α → GoReturn) (x : Call α × σ) : Call GoReturn × σ :=
  (⟨x.1.receiver, wrap x.1.result⟩, x.2)

/-- The operation run on a receiver over a transport with state. -/
def Op.runVia {σ : Type} (env : Env) (t : Transport σ) (u : User) (s : σ) :
    Op → Option (Call GoReturn × σ)
  | .GetCurrentUser fields => (u.GetCurrentUserVia env t fields s).map (viaReturn .user)
  | .GetUser userId fields => (u.GetUserVia env t userId fields s).map (viaReturn .user)
  | .CreateUser fields => (u.CreateUserVia env t fields s).map (viaReturn .user)
  | .UpdateUser userId fields => (u.UpdateUserVia env t userId fields s).map (viaReturn .user)
  | .CreateAppUser fields => (u.CreateAppUserVia env t fields s).map (viaReturn .user)
  | .DeleteUser userId notify force =>
    (u.DeleteUserVia t userId notify force s).map (viaReturn .error)
  | .GetEnterpriseUsers filterTerm offset limit fields =>
    (u.GetEnterpriseUsersVia env t filterTerm offset limit fields s).map (viaReturn .users)

/-- What an operation returns when it gives up with the error `e` before
any response is read: a nil user and `e`; the nil slice, three zeros and
`e`; or `e` alone. -/
def Op.givingUp (e : GoError) : Op → GoReturn
  | .GetCurrentUser _ => .user ⟨none, some e⟩
  | .GetUser _ _ => .user ⟨none, some e⟩
  | .CreateUser _ => .user ⟨none, some e⟩
  | .UpdateUser _ _ => .user ⟨none, some e⟩
  | .CreateAppUser _ => .user ⟨none, some e⟩
  | .DeleteUser _ _ _ => .error (some e)
  | .GetEnterpriseUsers _ _ _ _ => .users ⟨[], 0, 0, 0, some e⟩

/-- The returned values as an `Except`: the error when there is one,
otherwise what is returned next to the nil error. -/
def GoReturn.toExcept : GoReturn → Option (Except GoError Returned)
  | .user ⟨some r, none⟩ => some (.ok (.user r))
  | .user ⟨none, some e⟩ => some (.error e)
  | .user _ => none
  | .users ⟨_, _, _, _, some e⟩ => some (.error e)
  | .users ⟨outUsers, o, l, t, none⟩ => some (.ok (.users ⟨outUsers, o, l, t⟩))
  | .error (some e) => some (.error e)
  | .error none => some (.ok .nothing)

/-- The transport without state that answers as `env.Send` does. -/
def Env.transport (env : Env) : Transport Unit :=
  { Send := fun req s => (env.Send req, s) }

/-- A transport that answers every request with `reply` and keeps the list
of the requests it was sent, oldest first. -/
def loggingTransport (reply : Except GoError Response) : Transport (List Request) :=
  { Send := fun req log => (reply, log ++ [req]) }

/-! ## Proofs: the encoder -/

theorem lookup_none_of_not_mem_keys {β : Type} (k : String) :
    ∀ ms : List (String × β), k ∉ ms.map Prod.fst → ms.lookup k = none := by
  intro ms
  induction ms with
  | nil => intro _; rfl
  | cons e rest ih =>
    intro h
    obtain ⟨k', v⟩ := e
    simp only [List.map_cons, List.mem_cons, not_or] at h
    have hne : (k == k') = false := by simpa using h.1
    simp only [List.lookup, hne]
    exact ih h.2

theorem collectMembers_keys :
    ∀ (l : List (String × Option (Except GoError JSON))) (ms : List (String × JSON)),
      collectMembers l = .ok ms → ∀ k ∈ ms.map Prod.fst, k ∈ l.map Prod.fst := by
  intro l
  induction l with
  | nil =>
    intro ms h k hk
    simp only [collectMembers, Except.ok.injEq] at h
    subst h
    simp at hk
  | cons e rest ih =>
    intro ms h k hk
    obtain ⟨k', v⟩ := e
    cases v with
    | none =>
      simp only [collectMembers] at h
      exact List.mem_cons_of_mem _ (ih ms h k hk)
    | some r =>
      cases r with
      | error err => simp [collectMembers] at h
      | ok j =>
        simp only [collectMembers] at h
        cases hrest : collectMembers rest with
        | error err => simp [hrest] at h
        | ok ms' =>
          simp only [hrest, Except.ok.injEq] at h
          subst h
          simp only [List.map_cons, List.mem_cons] at hk ⊢
          rcases hk with hk | hk
          · exact Or.inl hk
          · exact Or.inr (ih ms' hrest k hk)

theorem collectMembers_lookup (k : String) :
    ∀ (l : List (String × Option (Except GoError JSON))) (ms : List (String × JSON)),
      (l.map Prod.fst).Nodup → collectMembers l = .ok ms →
      ms.lookup k = entryValue (l.lookup k) := by
  intro l
  induction l with
  | nil =>
    intro ms _ h
    simp only [collectMembers, Except.ok.injEq] at h
    subst h
    rfl
  | cons e rest ih =>
    intro ms hnd h
    obtain ⟨k', v⟩ := e
    simp only [List.map_cons, List.nodup_cons] at hnd
    by_cases hk : k = k'
    · subst hk
      have hself : (k == k) = true := by simp
      cases v with
      | none =>
        simp only [collectMembers] at h
        simp only [List.lookup, hself, entryValue]
        exact lookup_none_of_not_mem_keys k ms (fun hm => hnd.1 (collectMembers_keys rest ms h k hm))
      | some r =>
        cases r with
        | error err => simp [collectMembers] at h
        | ok j =>
          simp only [collectMembers] at h
          cases hrest : collectMembers rest with
          | error err => simp [hrest] at h
          | ok ms' =>
            simp only [hrest, Except.ok.injEq] at h
            subst h
            simp only [List.lookup, hself, entryValue]
    · have hne : (k == k') = false := by simpa using hk
      cases v with
      | none =>
        simp only [collectMembers] at h
        simp only [List.lookup, hne]
        exact ih ms hnd.2 h
      | some r =>
        cases r with
        | error err => simp [collectMembers] at h
        | ok j =>
          simp only [collectMembers] at h
          cases hrest : collectMembers rest with
          | error err => simp [hrest] at h
          | ok ms' =>
            simp only [hrest, Except.ok.injEq] at h
            subst h
            simp only [List.lookup, hne]
            exact ih ms' hnd.2 hrest

theorem userMembers_keys_nodup (u : UserFields) : ((userMembers u).map Prod.fst).Nodup := by
  simp only [userMembers, List.map_cons, List.map_nil]
  decide

/-! ## Proofs: the value that CreateUserReq encodes -/

theorem createUserData_Role (u : User) :
    u.createUserData.Role = if u.changeFlag &&& cUserRole = cUserRole then u.Role else none := by
  simp only [User.createUserData, apply_ite User.toUserFields, apply_ite UserFields.Role, ite_self]

theorem createUserData_Language (u : User) :
    u.createUserData.Language = if u.changeFlag &&& cUserLanguage = cUserLanguage then u.Language else none := by
  simp only [User.createUserData, apply_ite User.toUserFields, apply_ite UserFields.Language, ite_self]

theorem createUserData_IsSyncEnabled (u : User) :
    u.createUserData.IsSyncEnabled = if u.changeFlag &&& cUserIsSyncEnabled = cUserIsSyncEnabled then u.IsSyncEnabled else none := by
  simp only [User.createUserData, apply_ite User.toUserFields, apply_ite UserFields.IsSyncEnabled, ite_self]

theorem createUserData_JobTitle (u : User) :
    u.createUserData.JobTitle = if u.changeFlag &&& cUserJobTitle = cUserJobTitle then u.JobTitle else none := by
  simp only [User.createUserData, apply_ite User.toUserFields, apply_ite UserFields.JobTitle, ite_self]

theorem createUserData_Phone (u : User) :
    u.createUserData.Phone = if u.changeFlag &&& cUserPhone = cUserPhone then u.Phone else none := by
  simp only [User.createUserData, apply_ite User.toUserFields, apply_ite UserFields.Phone, ite_self]

theorem createUserData_Address (u : User) :
    u.createUserData.Address = if u.changeFlag &&& cUserAddress = cUserAddress then u.Address else none := by
  simp only [User.createUserData, apply_ite User.toUserFields, apply_ite UserFields.Address, ite_self]

theorem createUserData_SpaceAmount (u : User) :
    u.createUserData.SpaceAmount = if u.changeFlag &&& cUserSpaceAmount = cUserSpaceAmount then u.SpaceAmount else 0 := by
  simp only [User.createUserData, apply_ite User.toUserFields, apply_ite UserFields.SpaceAmount, ite_self]

theorem createUserData_TrackingCodes (u : User) :
    u.createUserData.TrackingCodes = if u.changeFlag &&& cUserTrackingCodes = cUserTrackingCodes then u.TrackingCodes else [] := by
  simp only [User.createUserData, apply_ite User.toUserFields, apply_ite UserFields.TrackingCodes, ite_self]

theorem createUserData_CanSeeManagedUsers (u : User) :
    u.createUserData.CanSeeManagedUsers = if u.changeFlag &&& cUserCanSeeMangedUsers = cUserCanSeeMangedUsers then u.CanSeeManagedUsers else none := by
  simp only [User.createUserData, apply_ite User.toUserFields, apply_ite UserFields.CanSeeManagedUsers, ite_self]

theorem createUserData_Timezone (u : User) :
    u.createUserData.Timezone = if u.changeFlag &&& cUserTimezone = cUserTimezone then u.Timezone else none := by
  simp only [User.createUserData, apply_ite User.toUserFields, apply_ite UserFields.Timezone, ite_self]

theorem createUserData_IsExemptFromDeviceLimits (u : User) :
    u.createUserData.IsExemptFromDeviceLimits = if u.changeFlag &&& cUserIsExemptFromDeviceLimits = cUserIsExemptFromDeviceLimits then u.IsExemptFromDeviceLimits else none := by
  simp only [User.createUserData, apply_ite User.toUserFields, apply_ite UserFields.IsExemptFromDeviceLimits, ite_self]

theorem createUserData_IsExemptFromLoginVerification (u : User) :
    u.createUserData.IsExemptFromLoginVerification = if u.changeFlag &&& cUserIsExemptFromLoginVerification = cUserIsExemptFromLoginVerification then u.IsExemptFromLoginVerification else none := by
  simp only [User.createUserData, apply_ite User.toUserFields, apply_ite UserFields.IsExemptFromLoginVerification, ite_self]

theorem createUserData_IsExternalCollabRestricted (u : User) :
    u.createUserData.IsExternalCollabRestricted = if u.changeFlag &&& cUserIsExternalCollabRestricted = cUserIsExternalCollabRestricted then u.IsExternalCollabRestricted else none := by
  simp only [User.createUserData, apply_ite User.toUserFields, apply_ite UserFields.IsExternalCollabRestricted, ite_self]

theorem createUserData_Status (u : User) :
    u.createUserData.Status = if u.changeFlag &&& cUserStatus = cUserStatus then u.Status else none := by
  simp only [User.createUserData, apply_ite User.toUserFields, apply_ite UserFields.Status, ite_self]

theorem createUserData_CreatedAt (u : User) : u.createUserData.CreatedAt = none := by
  simp only [User.createUserData, apply_ite User.toUserFields, apply_ite UserFields.CreatedAt, ite_self]

theorem createUserData_ModifiedAt (u : User) : u.createUserData.ModifiedAt = none := by
  simp only [User.createUserData, apply_ite User.toUserFields, apply_ite UserFields.ModifiedAt, ite_self]

theorem createUserData_AvatarUrl (u : User) : u.createUserData.AvatarUrl = none := by
  simp only [User.createUserData, apply_ite User.toUserFields, apply_ite UserFields.AvatarUrl, ite_self]

theorem createUserData_Enterprise (u : User) : u.createUserData.Enterprise = none := by
  simp only [User.createUserData, apply_ite User.toUserFields, apply_ite UserFields.Enterprise, ite_self]

theorem createUserData_MyTags (u : User) : u.createUserData.MyTags = none := by
  simp only [User.createUserData, apply_ite User.toUserFields, apply_ite UserFields.MyTags, ite_self]

theorem createUserData_Hostname (u : User) : u.createUserData.Hostname = none := by
  simp only [User.createUserData, apply_ite User.toUserFields, apply_ite UserFields.Hostname, ite_self]

theorem createUserData_IsPlatformAccessOnly (u : User) : u.createUserData.IsPlatformAccessOnly = none := by
  simp only [User.createUserData, apply_ite User.toUserFields, apply_ite UserFields.IsPlatformAccessOnly, ite_self]

theorem createUserData_ExternalAppUserId (u : User) : u.createUserData.ExternalAppUserId = none := by
  simp only [User.createUserData, apply_ite User.toUserFields, apply_ite UserFields.ExternalAppUserId, ite_self]

theorem createUserData_SpaceUsed (u : User) : u.createUserData.SpaceUsed = 0 := by
  simp only [User.createUserData, apply_ite User.toUserFields, apply_ite UserFields.SpaceUsed, ite_self]

theorem createUserData_MaxUploadSize (u : User) : u.createUserData.MaxUploadSize = 0 := by
  simp only [User.createUserData, apply_ite User.toUserFields, apply_ite UserFields.MaxUploadSize, ite_self]

theorem createUserData_Login (u : User) : u.createUserData.Login = u.Login := by
  simp only [User.createUserData, apply_ite User.toUserFields, apply_ite UserFields.toUserGroupMini,
    apply_ite UserGroupMini.Login, ite_self]

theorem createUserData_Name (u : User) : u.createUserData.Name = u.Name := by
  simp only [User.createUserData, apply_ite User.toUserFields, apply_ite UserFields.toUserGroupMini,
    apply_ite UserGroupMini.Name, ite_self]

theorem createUserData_Type_ (u : User) : u.createUserData.Type_ = none := by
  simp only [User.createUserData, apply_ite User.toUserFields, apply_ite UserFields.toUserGroupMini,
    apply_ite UserGroupMini.Type_, ite_self]

theorem createUserData_ID (u : User) : u.createUserData.ID = none := by
  simp only [User.createUserData, apply_ite User.toUserFields, apply_ite UserFields.toUserGroupMini,
    apply_ite UserGroupMini.ID, ite_self]

theorem userMembers_lookup_tracked (u : UserFields) (F : TrackedField) :
    (userMembers u).lookup F.key = some (F.entry u) := by
  cases F <;> rfl

theorem createUserData_entry (u : User) (F : TrackedField) :
    F.entry u.createUserData.toUserFields =
      if u.changeFlag &&& F.flag = F.flag then F.entry u.toUserFields else none := by
  cases F <;>
    simp only [TrackedField.entry, TrackedField.flag, createUserData_Role,
      createUserData_Language, createUserData_IsSyncEnabled, createUserData_JobTitle,
      createUserData_Phone, createUserData_Address, createUserData_SpaceAmount,
      createUserData_TrackingCodes, createUserData_CanSeeManagedUsers,
      createUserData_Timezone, createUserData_IsExemptFromDeviceLimits,
      createUserData_IsExemptFromLoginVerification,
      createUserData_IsExternalCollabRestricted, createUserData_Status] <;>
    split <;> rfl

theorem member_bytesReader (d : User) (k : String) :
    (bytesReader (jsonMarshalUser d)).member k =
      match jsonMarshalUser d with
      | .ok _ => entryValue ((userMembers d.toUserFields).lookup k)
      | .error _ => none := by
  cases h : jsonMarshalUser d with
  | error err => rfl
  | ok ms =>
    simp only [bytesReader, Body.member]
    exact collectMembers_lookup k _ ms (userMembers_keys_nodup _) h

theorem member_none_of_entry_none (d : User) (k : String)
    (h : entryValue ((userMembers d.toUserFields).lookup k) = none) :
    (bytesReader (jsonMarshalUser d)).member k = none := by
  rw [member_bytesReader]
  cases jsonMarshalUser d with
  | error err => rfl
  | ok ms => exact h

theorem flag_ne_zero (F : TrackedField) : F.flag ≠ 0 := by
  cases F <;> decide

theorem createUserData_of_only_name (u : User)
    (h : u.changeFlag = 0 ∨ u.changeFlag = cUserName) :
    u.createUserData = { Login := u.Login, Name := u.Name } := by
  rcases h with h | h <;>
  simp [User.createUserData, h, cUserName, cUserRole, cUserLanguage, cUserIsSyncEnabled,
    cUserJobTitle, cUserPhone, cUserAddress, cUserSpaceAmount, cUserTrackingCodes,
    cUserCanSeeMangedUsers, cUserTimezone, cUserIsExemptFromDeviceLimits,
    cUserIsExemptFromLoginVerification, cUserIsExternalCollabRestricted, cUserStatus]

theorem createUserReq_eq (buildFields : List String → String) (u : User) (api : ApiConn)
    (fields : List String) (h : u.conn = some api) :
    u.CreateUserReq buildFields fields =
      some ⟨u, NewRequest api (api.BaseURL ++ "users" ++ optionalQuery (buildFields fields))
        .POST (bytesReader (jsonMarshalUser u.createUserData))⟩ := by
  simp only [User.CreateUserReq, h]

/-! ## Proofs: the change bits -/

theorem land_two_pow_eq_iff (x k : Nat) : x &&& 2 ^ k = 2 ^ k ↔ x.testBit k = true := by
  constructor
  · intro h
    have hk := congrArg (fun y => Nat.testBit y k) h
    simpa [Nat.testBit_two_pow_self] using hk
  · intro h
    apply Nat.eq_of_testBit_eq
    intro i
    rw [Nat.testBit_and, Nat.testBit_two_pow]
    by_cases hi : k = i
    · subst hi
      simp [h]
    · simp [hi]

theorem flag_eq_two_pow (F : TrackedField) : F.flag = 2 ^ F.bit := by
  cases F <;> rfl

theorem bit_injective (F G : TrackedField) (h : F.bit = G.bit) : F = G := by
  cases F <;> cases G <;> first | rfl | (exact absurd h (by decide))

theorem apply_changeFlag (u : User) (c : SetterCall) :
    (c.apply u).changeFlag = u.changeFlag ||| c.mask := by
  cases c <;> first | rfl | (simp [SetterCall.apply, User.SetLogin, SetterCall.mask,
    SetterCall.field, SetterCall.isSetName])

theorem runSetters_changeFlag (calls : List SetterCall) :
    ∀ u : User, (runSetters u calls).changeFlag =
      calls.foldl (fun acc c => acc ||| c.mask) u.changeFlag := by
  induction calls with
  | nil => intro u; rfl
  | cons c rest ih =>
    intro u
    simp only [runSetters, List.foldl_cons] at ih ⊢
    rw [ih (c.apply u), apply_changeFlag]

theorem testBit_foldl_mask (k : Nat) (calls : List SetterCall) :
    ∀ acc : Nat, (calls.foldl (fun acc c => acc ||| c.mask) acc).testBit k = true ↔
      acc.testBit k = true ∨ ∃ c ∈ calls, c.mask.testBit k = true := by
  induction calls with
  | nil => intro acc; simp
  | cons c rest ih =>
    intro acc
    simp only [List.foldl_cons, List.mem_cons, exists_eq_or_imp]
    rw [ih, Nat.testBit_or, Bool.or_eq_true, or_assoc]

theorem bit_pos (F : TrackedField) : 0 ≠ F.bit := by
  cases F <;> decide

theorem mask_testBit_tracked (c : SetterCall) (F : TrackedField) :
    c.mask.testBit F.bit = true ↔ c.field = some F := by
  unfold SetterCall.mask
  cases hf : c.field with
  | none =>
    have hname : cUserName = 2 ^ 0 := rfl
    by_cases hn : c.isSetName = true
    · rw [if_pos hn, hname, Nat.testBit_two_pow]
      simp [bit_pos F]
    · simp [hn]
  | some G =>
    simp only [flag_eq_two_pow, Nat.testBit_two_pow, decide_eq_true_eq, Option.some.injEq]
    exact ⟨bit_injective G F, fun h => by rw [h]⟩

theorem mask_testBit_name (c : SetterCall) :
    c.mask.testBit 0 = true ↔ c.isSetName = true := by
  unfold SetterCall.mask
  cases hf : c.field with
  | none =>
    have hname : cUserName = 2 ^ 0 := rfl
    by_cases hn : c.isSetName = true
    · simp [hn, hname]
    · simp [hn]
  | some G =>
    have hno : c.isSetName = false := by
      cases c <;> first | rfl | (exact absurd hf (by simp [SetterCall.field]))
    simp [flag_eq_two_pow, Nat.testBit_two_pow, hno, (bit_pos G).symm]

/-! ## Proofs: the operations -/

theorem conn_some (u : User) (api : ApiConn) (h : u.conn = some api) :
    ∃ info, u.apiInfo = some info ∧ info.api = some api := by
  unfold User.conn at h
  cases hinfo : u.apiInfo with
  | none => simp [hinfo] at h
  | some info => exact ⟨info, rfl, by simpa [hinfo] using h⟩

theorem request_some (env : Env) (u : User) (op : Op) (call : Call Request)
    (h : op.request env u = some call) :
    ∃ api, u.conn = some api ∧ call.receiver.apiInfo = u.apiInfo := by
  cases hconn : u.conn with
  | none =>
    cases op <;>
      simp [Op.request, User.GetCurrentUserReq, User.GetUserReq, User.CreateUserReq,
        User.UpdateUserReq, User.CreateAppUserReq, User.DeleteUserReq,
        User.GetEnterpriseUsersReq, hconn] at h
  | some api =>
    refine ⟨api, rfl, ?_⟩
    cases op <;>
      simp only [Op.request, User.GetCurrentUserReq, User.GetUserReq, User.CreateUserReq,
        User.UpdateUserReq, User.CreateAppUserReq, User.DeleteUserReq,
        User.GetEnterpriseUsersReq, hconn, Option.some.injEq] at h <;>
      subst h <;> rfl

theorem attachApiInfo_spec (u : User) :
    ∀ (entries : List (Option User)) (users : List User),
      attachApiInfo u entries = some users →
      ∀ r ∈ users, r.apiInfo = some { api := u.conn } ∧
        ∃ user, some user ∈ entries ∧ r.changeFlag = user.changeFlag ∧
          r.toUserFields = user.toUserFields := by
  intro entries
  induction entries with
  | nil =>
    intro users h r hr
    simp only [attachApiInfo, Option.some.injEq] at h
    subst h
    simp at hr
  | cons entry rest ih =>
    intro users h r hr
    simp only [attachApiInfo] at h
    cases hinfo : u.apiInfo with
    | none => simp [hinfo] at h
    | some info =>
      cases entry with
      | none => simp [hinfo] at h
      | some user =>
        cases hrest : attachApiInfo u rest with
        | none => simp [hinfo, hrest] at h
        | some others =>
          simp only [hinfo, hrest, Option.some.injEq] at h
          subst h
          simp only [List.mem_cons] at hr
          rcases hr with hr | hr
          · subst hr
            refine ⟨?_, user, List.mem_cons_self _ _, rfl, rfl⟩
            simp [User.conn, hinfo]
          · obtain ⟨hapi, user', hmem, hflag, hfields⟩ := ih others hrest r hr
            exact ⟨hapi, user', List.mem_cons_of_mem _ hmem, hflag, hfields⟩

theorem createUser_receiver (env : Env) (u : User) (fields : List String)
    (c : Call (Except GoError User)) (h : u.CreateUser env fields = some c) :
    c.receiver = u := by
  cases hconn : u.conn with
  | none => simp [User.CreateUser, User.CreateUserReq, hconn] at h
  | some api =>
    simp only [User.CreateUser, User.CreateUserReq, hconn] at h
    split at h
    · simp only [Option.some.injEq] at h
      rw [← h]
    · split at h
      · simp only [Option.some.injEq] at h
        rw [← h]
      · split at h
        · simp at h
        · simp only [Option.some.injEq] at h
          rw [← h]

theorem updateUser_receiver (env : Env) (u : User) (userId : String) (fields : List String)
    (c : Call (Except GoError User)) (h : u.UpdateUser env userId fields = some c) :
    c.receiver = u := by
  cases hconn : u.conn with
  | none => simp [User.UpdateUser, User.UpdateUserReq, hconn] at h
  | some api =>
    simp only [User.UpdateUser, User.UpdateUserReq, hconn] at h
    split at h
    · simp only [Option.some.injEq] at h
      rw [← h]
    · split at h
      · simp only [Option.some.injEq] at h
        rw [← h]
      · split at h
        · simp at h
        · simp only [Option.some.injEq] at h
          rw [← h]

theorem createAppUser_receiver (env : Env) (u : User) (fields : List String)
    (c : Call (Except GoError User)) (h : u.CreateAppUser env fields = some c) :
    c.receiver = { u with IsPlatformAccessOnly := some true } := by
  cases hconn : u.conn with
  | none => simp [User.CreateAppUser, User.CreateAppUserReq, hconn] at h
  | some api =>
    simp only [User.CreateAppUser, User.CreateAppUserReq, hconn] at h
    split at h
    · simp only [Option.some.injEq] at h
      rw [← h]
    · split at h
      · simp only [Option.some.injEq] at h
        rw [← h]
      · split at h
        · simp at h
        · simp only [Option.some.injEq] at h
          rw [← h]

/-! ## Proofs: the request builders -/

theorem getCurrentUserReq_eq (buildFields : List String → String) (u : User) (api : ApiConn)
    (fields : List String) (h : u.conn = some api) :
    u.GetCurrentUserReq buildFields fields =
      some ⟨u, NewRequest api (api.BaseURL ++ "users/me" ++ optionalQuery (buildFields fields))
        .GET .absent⟩ := by
  simp only [User.GetCurrentUserReq, h]

theorem getUserReq_eq (buildFields : List String → String) (u : User) (api : ApiConn)
    (userId : String) (fields : List String) (h : u.conn = some api) :
    u.GetUserReq buildFields userId fields =
      some ⟨u, NewRequest api
        (api.BaseURL ++ "users/" ++ userId ++ optionalQuery (buildFields fields)) .GET .absent⟩ := by
  simp only [User.GetUserReq, h]

theorem updateUserReq_eq (buildFields : List String → String) (u : User) (api : ApiConn)
    (userId : String) (fields : List String) (h : u.conn = some api) :
    u.UpdateUserReq buildFields userId fields =
      some ⟨u, NewRequest api (api.BaseURL ++ "users/" ++ userId ++ "?" ++ buildFields fields)
        .PUT (bytesReader (jsonMarshalUser u))⟩ := by
  simp only [User.UpdateUserReq, h]

theorem createAppUserReq_eq (buildFields : List String → String) (u : User) (api : ApiConn)
    (fields : List String) (h : u.conn = some api) :
    u.CreateAppUserReq buildFields fields =
      some ⟨{ u with IsPlatformAccessOnly := some true },
        NewRequest api (api.BaseURL ++ "users/" ++ "?" ++ buildFields fields) .POST
          (bytesReader (jsonMarshalUser { u with IsPlatformAccessOnly := some true }))⟩ := by
  simp only [User.CreateAppUserReq, h]

theorem deleteUserReq_eq (u : User) (api : ApiConn) (userId : String) (notify force : Bool)
    (h : u.conn = some api) :
    u.DeleteUserReq userId notify force =
      some ⟨u, NewRequest api (api.BaseURL ++ "users/" ++ userId ++ "?notify=" ++
        fmtBool notify ++ "&force=" ++ fmtBool force) .DELETE .absent⟩ := by
  simp only [User.DeleteUserReq, h]

theorem getEnterpriseUsersReq_eq (buildFields : List String → String) (u : User)
    (api : ApiConn) (filterTerm : String) (offset limit : Int) (fields : List String)
    (h : u.conn = some api) :
    u.GetEnterpriseUsersReq buildFields filterTerm offset limit fields =
      some ⟨u, NewRequest api (api.BaseURL ++ "users" ++ "?filter_term=" ++ filterTerm ++
        "&offset=" ++ fmtInt offset ++ "&limit=" ++ fmtInt limit ++ "&" ++ buildFields fields)
        .GET .absent⟩ := by
  simp only [User.GetEnterpriseUsersReq, h]

theorem fmtInt_ofNat (n : Nat) : fmtInt (n : Int) = toString n := rfl

theorem optionalQuery_empty : optionalQuery "" = "" := rfl

theorem optionalQuery_of_ne (p : String) (h : p ≠ "") : optionalQuery p = "?" ++ p := by
  simp only [optionalQuery, if_pos h]

theorem mem_path_optionalQuery (path p : String) (h : questionMark ∉ path.toList) :
    questionMark ∈ (path ++ optionalQuery p).toList ↔ p ≠ "" := by
  by_cases hp : p = ""
  · subst hp
    simp only [optionalQuery_empty, String.append_empty, ne_eq, not_true_eq_false, iff_false]
    exact h
  · rw [optionalQuery_of_ne p hp]
    simp only [String.toList, String.data_append, List.mem_append, ne_eq, hp,
      not_false_eq_true, iff_true]
    exact Or.inr (Or.inl (by decide))

/-! ## Proofs: what a call leaves in the receiver -/

theorem returning_receiver {α : Type} (wrap : α → Returned) (c : Call (Except GoError α)) :
    (Call.returning wrap c).receiver = c.receiver := by
  obtain ⟨receiver, result⟩ := c
  cases result <;> rfl

theorem request_receiver (env : Env) (u : User) (op : Op) (call : Call Request)
    (h : op.request env u = some call) :
    call.receiver = u ∨ call.receiver = { u with IsPlatformAccessOnly := some true } := by
  cases hconn : u.conn with
  | none =>
    cases op <;>
      simp [Op.request, User.GetCurrentUserReq, User.GetUserReq, User.CreateUserReq,
        User.UpdateUserReq, User.CreateAppUserReq, User.DeleteUserReq,
        User.GetEnterpriseUsersReq, hconn] at h
  | some api =>
    cases op <;>
      simp only [Op.request, User.GetCurrentUserReq, User.GetUserReq, User.CreateUserReq,
        User.UpdateUserReq, User.CreateAppUserReq, User.DeleteUserReq,
        User.GetEnterpriseUsersReq, hconn, Option.some.injEq] at h <;>
      subst h <;> first | exact Or.inl rfl | exact Or.inr rfl

theorem getCurrentUser_receiver (env : Env) (u : User) (fields : List String)
    (c : Call (Except GoError User)) (h : u.GetCurrentUser env fields = some c) :
    c.receiver = u := by
  cases hconn : u.conn with
  | none => simp [User.GetCurrentUser, User.GetCurrentUserReq, hconn] at h
  | some api =>
    simp only [User.GetCurrentUser, User.GetCurrentUserReq, hconn] at h
    repeat' split at h
    all_goals first
      | (simp only [Option.some.injEq] at h; rw [← h])
      | (simp at h)

theorem getUser_receiver (env : Env) (u : User) (userId : String) (fields : List String)
    (c : Call (Except GoError User)) (h : u.GetUser env userId fields = some c) :
    c.receiver = u := by
  cases hconn : u.conn with
  | none => simp [User.GetUser, User.GetUserReq, hconn] at h
  | some api =>
    simp only [User.GetUser, User.GetUserReq, hconn] at h
    repeat' split at h
    all_goals first
      | (simp only [Option.some.injEq] at h; rw [← h])
      | (simp at h)

theorem deleteUser_receiver (env : Env) (u : User) (userId : String) (notify force : Bool)
    (c : Call (Except GoError Unit)) (h : u.DeleteUser env userId notify force = some c) :
    c.receiver = u := by
  cases hconn : u.conn with
  | none => simp [User.DeleteUser, User.DeleteUserReq, hconn] at h
  | some api =>
    simp only [User.DeleteUser, User.DeleteUserReq, hconn] at h
    repeat' split at h
    all_goals (simp only [Option.some.injEq] at h; rw [← h])

theorem getEnterpriseUsers_receiver (env : Env) (u : User) (filterTerm : String)
    (offset limit : Int) (fields : List String) (c : Call (Except GoError UsersResult))
    (h : u.GetEnterpriseUsers env filterTerm offset limit fields = some c) :
    c.receiver = u := by
  cases hconn : u.conn with
  | none => simp [User.GetEnterpriseUsers, User.GetEnterpriseUsersReq, hconn] at h
  | some api =>
    simp only [User.GetEnterpriseUsers, User.GetEnterpriseUsersReq, hconn] at h
    repeat' split at h
    all_goals first
      | (simp only [Option.some.injEq] at h; rw [← h])
      | (simp at h)

theorem run_receiver (env : Env) (u : User) (op : Op)
    (outcome : Call (Except GoError Returned)) (h : op.run env u = some outcome) :
    outcome.receiver = u ∨ outcome.receiver = { u with IsPlatformAccessOnly := some true } := by
  cases op <;> simp only [Op.run, Option.map_eq_some'] at h <;> obtain ⟨c, hc, rfl⟩ := h <;>
    rw [returning_receiver]
  · exact Or.inl (getCurrentUser_receiver env u _ c hc)
  · exact Or.inl (getUser_receiver env u _ _ c hc)
  · exact Or.inl (createUser_receiver env u _ c hc)
  · exact Or.inl (updateUser_receiver env u _ _ c hc)
  · exact Or.inr (createAppUser_receiver env u _ c hc)
  · exact Or.inl (deleteUser_receiver env u _ _ _ c hc)
  · exact Or.inl (getEnterpriseUsers_receiver env u _ _ _ _ c hc)

theorem mask_eq_of_setterName (c d : SetterCall) (h : c.setterName = d.setterName) :
    c.mask = d.mask := by
  cases c <;> cases d <;> first | rfl | (simp [SetterCall.setterName] at h)

theorem attachApiInfo_map (u : User) (info : apiInfo) (hinfo : u.apiInfo = some info)
    (entries : List UserFields) :
    attachApiInfo u (entries.map (fun e => some { toUserFields := e })) =
      some (entries.map (fun e =>
        { toUserFields := e, apiInfo := some { api := info.api }, changeFlag := 0 })) := by
  induction entries with
  | nil => rfl
  | cons e rest ih =>
    simp only [List.map_cons, attachApiInfo, hinfo, ih]

/-! ## Proofs: the two forms of the operations agree -/

/-- The outcome over a transport with state, read as an outcome of the
operation without state. -/
theorem runVia_agrees (env : Env) (u : User) (op : Op) :
    (op.runVia env env.transport u ()).bind
        (fun x => x.1.result.toExcept.map (fun r => (⟨x.1.receiver, r⟩ : Call _))) =
      op.run env u := by
  cases op <;>
    simp only [Op.runVia, Op.run, User.GetCurrentUserVia, User.GetCurrentUser, User.GetUserVia,
      User.GetUser, User.CreateUserVia, User.CreateUser, User.UpdateUserVia, User.UpdateUser,
      User.CreateAppUserVia, User.CreateAppUser, User.DeleteUserVia, User.DeleteUser,
      User.GetEnterpriseUsersVia, User.GetEnterpriseUsers, Env.transport]
  all_goals (repeat' split)
  all_goals simp_all [viaReturn, GoReturn.toExcept, Call.returning]

/-! ## Proofs: the claims -/

/-- C1: for every user with a connection, the payload built by CreateUserReq
leaves out every tracked optional member whose change bit is clear in
changeFlag, whatever the user holds for it, and leaves out every member that
has no setter. -/
theorem createUserReq_untouched_absent (buildFields : List String → String) (u : User)
    (api : ApiConn) (fields : List String) (hconn : u.conn = some api) :
    ∃ call, u.CreateUserReq buildFields fields = some call ∧
      (∀ F : TrackedField, u.changeFlag &&& F.flag = 0 →
        call.result.Body.member F.key = none) ∧
      (∀ k ∈ untrackedKeys, call.result.Body.member k = none) := by
  refine ⟨_, by simp only [User.CreateUserReq, hconn]; rfl, ?_, ?_⟩
  · intro F hF
    apply member_none_of_entry_none
    have hclear : ¬ (u.changeFlag &&& F.flag = F.flag) := by
      rw [hF]
      exact fun h => flag_ne_zero F h.symm
    rw [userMembers_lookup_tracked, createUserData_entry, if_neg hclear]
    rfl
  · intro k hk
    apply member_none_of_entry_none
    simp only [untrackedKeys, List.mem_cons, List.mem_singleton, List.mem_nil_iff, or_false] at hk
    rcases hk with h | h | h | h | h | h | h | h | h | h <;> subst h
    · show entryValue (some (encTime u.createUserData.CreatedAt)) = none
      rw [createUserData_CreatedAt]; rfl
    · show entryValue (some (encTime u.createUserData.ModifiedAt)) = none
      rw [createUserData_ModifiedAt]; rfl
    · show entryValue (some (encInt u.createUserData.SpaceUsed)) = none
      rw [createUserData_SpaceUsed]; rfl
    · show entryValue (some (encInt u.createUserData.MaxUploadSize)) = none
      rw [createUserData_MaxUploadSize]; rfl
    · show entryValue (some (encString u.createUserData.AvatarUrl)) = none
      rw [createUserData_AvatarUrl]; rfl
    · show entryValue (some (encEnterprise u.createUserData.Enterprise)) = none
      rw [createUserData_Enterprise]; rfl
    · show entryValue (some (encMyTags u.createUserData.MyTags)) = none
      rw [createUserData_MyTags]; rfl
    · show entryValue (some (encString u.createUserData.Hostname)) = none
      rw [createUserData_Hostname]; rfl
    · show entryValue (some (encBool u.createUserData.IsPlatformAccessOnly)) = none
      rw [createUserData_IsPlatformAccessOnly]; rfl
    · show entryValue (some (encString u.createUserData.ExternalAppUserId)) = none
      rw [createUserData_ExternalAppUserId]; rfl

/-- C1, at the fetched user: its role, populated but never set through the
setter, and its hostname, which has no setter, stay out of the create
payload. -/
theorem createUserReq_untouched_absent_witness :
    fetchedUser.conn = some exampleConn ∧ fetchedUser.Role = some "user" ∧
    fetchedUser.changeFlag &&& TrackedField.role.flag = 0 ∧
    ∃ call, fetchedUser.CreateUserReq noProjection [] = some call ∧
      call.result.Body.member "role" = none ∧
      call.result.Body.member "hostname" = none := by
  obtain ⟨call, hcall, htracked, hrest⟩ :=
    createUserReq_untouched_absent noProjection fetchedUser exampleConn [] rfl
  exact ⟨rfl, rfl, rfl, call, hcall, htracked .role rfl,
    hrest "hostname" (by simp [untrackedKeys])⟩

/-- C2, evaluated: after SetSpaceAmount 0, and after SetTrackingCodes of the
empty list, the change bit is set but the create payload has no member
space_amount, respectively tracking_codes: both members are not pointers, so
omitempty drops their zero value.  A pointer member keeps its zero value:
after SetPhone of the empty string the payload has phone, the empty
string. -/
theorem createUserReq_zero_value_dropped :
    (((NewUser (some exampleConn)).SetSpaceAmount 0).changeFlag &&& cUserSpaceAmount
        = cUserSpaceAmount) ∧
    (((NewUser (some exampleConn)).SetSpaceAmount 0).CreateUserReq noProjection []).map
        (fun call => call.result.Body.member "space_amount") = some none ∧
    (((NewUser (some exampleConn)).SetTrackingCodes []).changeFlag &&& cUserTrackingCodes
        = cUserTrackingCodes) ∧
    (((NewUser (some exampleConn)).SetTrackingCodes []).CreateUserReq noProjection []).map
        (fun call => call.result.Body.member "tracking_codes") = some none ∧
    (((NewUser (some exampleConn)).SetPhone "").CreateUserReq noProjection []).map
        (fun call => call.result.Body.member "phone") = some (some (JSON.str "")) :=
  ⟨by decide, rfl, by decide, rfl, rfl⟩

/-- C3, evaluated: on the fetched user, after SetStatus alone, changeFlag is
the status bit and nothing else, and yet the body built by UpdateUserReq
carries every populated member of the user (language, timezone, phone, role,
hostname and so on), because it encodes the receiver itself. -/
theorem updateUserReq_sends_untouched_members :
    (fetchedUser.SetStatus "inactive").changeFlag = cUserStatus ∧
    ((fetchedUser.SetStatus "inactive").UpdateUserReq noProjection "17" []).map
        (fun call => call.result.Body.keys) =
      some ["id", "name", "login", "language", "timezone", "space_amount", "status",
        "phone", "role", "hostname"] ∧
    ((fetchedUser.SetStatus "inactive").UpdateUserReq noProjection "17" []).map
        (fun call => call.result.Body.member "language") = some (some (JSON.str "en")) :=
  ⟨by decide, by decide, rfl⟩

/-- C4: on a user made by NewUser on which SetLogin l and SetName n were
called, in either order, and nothing else, the payload built by CreateUserReq
has login l, name n, and these two members only. -/
theorem createUserReq_login_name (buildFields : List String → String) (api : ApiConn)
    (l n : String) (fields : List String) :
    ∀ u ∈ [((NewUser (some api)).SetLogin l).SetName n,
        ((NewUser (some api)).SetName n).SetLogin l],
      ∃ call, u.CreateUserReq buildFields fields = some call ∧
        call.result.Body.member "login" = some (JSON.str l) ∧
        call.result.Body.member "name" = some (JSON.str n) ∧
        call.result.Body.keys.Perm ["login", "name"] := by
  intro u hu
  simp only [List.mem_cons, List.mem_singleton, List.mem_nil_iff, or_false] at hu
  have hflag : u.changeFlag = 0 ∨ u.changeFlag = cUserName := by
    rcases hu with h | h <;> subst h <;> simp [NewUser, User.SetLogin, User.SetName]
  have hlogin : u.Login = some l := by rcases hu with h | h <;> subst h <;> rfl
  have hname : u.Name = some n := by rcases hu with h | h <;> subst h <;> rfl
  have hconn : u.conn = some api := by rcases hu with h | h <;> subst h <;> rfl
  refine ⟨_, createUserReq_eq buildFields u api fields hconn, ?_, ?_, ?_⟩ <;>
    simp only [NewRequest, createUserData_of_only_name u hflag, hlogin, hname]
  · rfl
  · rfl
  · exact List.Perm.swap _ _ _

/-- C4, the scenario of the spec: login a@b.com and name A. -/
theorem createUserReq_login_name_witness :
    ∃ call, (((NewUser (some exampleConn)).SetLogin "a@b.com").SetName "A").CreateUserReq
        noProjection [] = some call ∧
      call.result.Body.member "login" = some (JSON.str "a@b.com") ∧
      call.result.Body.member "name" = some (JSON.str "A") ∧
      call.result.Body.keys.Perm ["login", "name"] :=
  createUserReq_login_name noProjection exampleConn "a@b.com" "A" [] _ (List.mem_cons_self _ _)

/-- C5: right after NewUser changeFlag is 0; after any finite sequence of
setter calls on a user made by NewUser, the name bit is set if and only if
SetName occurs in the sequence, and the bit of each tracked member is set if
and only if the setter of that member occurs in the sequence; one setter call
leaves the bit of every member other than its own as it was. -/
theorem changeFlag_tracks_setters (api : Option ApiConn) (calls : List SetterCall) :
    (NewUser api).changeFlag = 0 ∧
    ((runSetters (NewUser api) calls).changeFlag &&& cUserName = cUserName ↔
      ∃ c ∈ calls, c.isSetName = true) ∧
    (∀ F : TrackedField,
      (runSetters (NewUser api) calls).changeFlag &&& F.flag = F.flag ↔
        ∃ c ∈ calls, c.field = some F) ∧
    (∀ (u : User) (c : SetterCall) (G : TrackedField), c.field ≠ some G →
      ((c.apply u).changeFlag &&& G.flag = G.flag ↔ u.changeFlag &&& G.flag = G.flag)) := by
  refine ⟨rfl, ?_, ?_, ?_⟩
  · have hname : cUserName = 2 ^ 0 := rfl
    rw [hname, land_two_pow_eq_iff, runSetters_changeFlag, testBit_foldl_mask]
    have hzero : (NewUser api).changeFlag.testBit 0 = false := Nat.zero_testBit _
    simp only [hzero, Bool.false_eq_true, false_or, mask_testBit_name]
  · intro F
    rw [flag_eq_two_pow, land_two_pow_eq_iff, runSetters_changeFlag, testBit_foldl_mask]
    have hzero : (NewUser api).changeFlag.testBit F.bit = false := Nat.zero_testBit _
    simp only [hzero, Bool.false_eq_true, false_or, mask_testBit_tracked]
  · intro u c G hne
    rw [flag_eq_two_pow, land_two_pow_eq_iff, land_two_pow_eq_iff, apply_changeFlag,
      Nat.testBit_or, Bool.or_eq_true]
    constructor
    · rintro (h | h)
      · exact h
      · exact absurd ((mask_testBit_tracked c G).mp h) hne
    · exact Or.inl

/-- C5, on a sequence of four calls: the phone and status bits are set, the
role bit is not, and SetLogin leaves the phone bit alone. -/
theorem changeFlag_tracks_setters_witness :
    ((runSetters (NewUser none)
        [.SetLogin "a@b.com", .SetPhone "1", .SetStatus "active", .SetPhone "2"]).changeFlag
      &&& cUserPhone = cUserPhone) ∧
    ¬ ((runSetters (NewUser none)
        [.SetLogin "a@b.com", .SetPhone "1", .SetStatus "active", .SetPhone "2"]).changeFlag
      &&& cUserRole = cUserRole) ∧
    (((SetterCall.SetLogin "x").apply fetchedUser).changeFlag &&& cUserPhone = cUserPhone ↔
      fetchedUser.changeFlag &&& cUserPhone = cUserPhone) := by
  have h := changeFlag_tracks_setters none
    [.SetLogin "a@b.com", .SetPhone "1", .SetStatus "active", .SetPhone "2"]
  refine ⟨(h.2.2.1 .phone).mpr ⟨.SetPhone "1", by simp, rfl⟩, ?_,
    h.2.2.2 fetchedUser (.SetLogin "x") .phone (by decide)⟩
  intro hrole
  obtain ⟨c, hc, hf⟩ := (h.2.2.1 .role).mp hrole
  simp only [List.mem_cons, List.mem_singleton, List.mem_nil_iff, or_false] at hc
  rcases hc with hc | hc | hc | hc <;> subst hc <;> exact absurd hf (by decide)

/-- C6: when the request is built, Send succeeds, the status is the expected
one and the body decodes, each of GetCurrentUser, GetUser, CreateUser,
UpdateUser and CreateAppUser returns a user whose changeFlag is 0, whose
exported members are the decoded ones and whose apiInfo holds the receiver's
connection, whatever the receiver's changeFlag; and every user that
GetEnterpriseUsers returns has changeFlag 0 and the receiver's connection. -/
theorem returned_users_have_empty_tracker (env : Env) (u : User) :
    (∀ (op : Op) (call : Call Request) (resp : Response)
        (decoder : Bytes → UserFields → Except GoError UserFields) (decoded : UserFields),
      op.request env u = some call → env.Send call.result = .ok resp →
      resp.ResponseCode = op.successCode → op.decoder env = some decoder →
      decoder resp.Body {} = .ok decoded →
      ∃ r, op.run env u = some ⟨call.receiver, .ok (.user r)⟩ ∧ r.changeFlag = 0 ∧
        r.toUserFields = decoded ∧ r.apiInfo = some { api := u.conn }) ∧
    (∀ (filterTerm : String) (offset limit : Int) (fields : List String) (receiver : User)
        (res : UsersResult),
      u.GetEnterpriseUsers env filterTerm offset limit fields = some ⟨receiver, .ok res⟩ →
      ∀ r ∈ res.outUsers, r.changeFlag = 0 ∧ r.apiInfo = some { api := u.conn }) := by
  constructor
  · intro op call resp decoder decoded hreq hsend hcode hdecoder hdec
    obtain ⟨api, hconn, hinfo⟩ := request_some env u op call hreq
    obtain ⟨info, hu, hapi⟩ := conn_some u api hconn
    obtain ⟨receiver, req⟩ := call
    simp only at hsend hinfo
    rw [hu] at hinfo
    refine ⟨{ toUserFields := decoded, apiInfo := some { api := u.conn }, changeFlag := 0 },
      ?_, rfl, rfl, rfl⟩
    cases op <;> simp only [Op.decoder, Option.some.injEq, reduceCtorEq] at hdecoder <;>
      subst hdecoder <;>
      simp only [Op.request] at hreq <;>
      simp only [Op.successCode] at hcode <;>
      simp [Op.run, User.GetCurrentUser, User.GetUser, User.CreateUser, User.UpdateUser,
        User.CreateAppUser, hreq, hsend, hcode, hinfo, decodeInto, hdec, Call.returning,
        hconn, hapi]
  · intro filterTerm offset limit fields receiver res h r hr
    cases hreq : u.GetEnterpriseUsersReq env.BuildFieldsQueryParams filterTerm offset limit
        fields with
    | none => simp [User.GetEnterpriseUsers, hreq] at h
    | some call =>
      obtain ⟨_, _, hinfo⟩ :=
        request_some env u (.GetEnterpriseUsers filterTerm offset limit fields) call hreq
      obtain ⟨sender, req⟩ := call
      have hconn : sender.conn = u.conn := by
        simp only at hinfo
        simp only [User.conn, hinfo]
      simp only [User.GetEnterpriseUsers, hreq] at h
      split at h
      · exact absurd h (by simp)
      · split at h
        · exact absurd h (by simp)
        · split at h
          · exact absurd h (by simp)
          · split at h
            · exact absurd h (by simp)
            · rename_i outUsers hattach
              simp only [Option.some.injEq, Call.mk.injEq, Except.ok.injEq] at h
              obtain ⟨_, hres⟩ := h
              subst hres
              obtain ⟨hapi, user, hmem, hflag, _⟩ := attachApiInfo_spec _ _ _ hattach r hr
              refine ⟨?_, by rw [hapi, hconn]⟩
              rw [hflag]
              simp only [List.mem_map] at hmem
              obtain ⟨e, _, he⟩ := hmem
              cases e with
              | none => simp at he
              | some decoded =>
                simp only [Option.map_some', Option.some.injEq] at he
                subst he
                rfl

/-- C6, on a user whose changeFlag has the status bit set: CreateUser answered
with 201 and a body returns a user with changeFlag 0 and the receiver's
connection. -/
theorem returned_users_have_empty_tracker_witness :
    (fetchedUser.SetStatus "inactive").changeFlag ≠ 0 ∧
    ∃ call r, (Op.CreateUser []).request (stubEnv (.ok { ResponseCode := 201, Body := [123, 125] }))
        (fetchedUser.SetStatus "inactive") = some call ∧
      (Op.CreateUser []).run (stubEnv (.ok { ResponseCode := 201, Body := [123, 125] }))
        (fetchedUser.SetStatus "inactive") = some ⟨call.receiver, .ok (.user r)⟩ ∧
      r.changeFlag = 0 ∧ r.SpaceAmount = 5000 ∧
      r.apiInfo = some { api := some exampleConn } := by
  obtain ⟨r, hrun, hflag, hfields, hapi⟩ :=
    (returned_users_have_empty_tracker (stubEnv (.ok { ResponseCode := 201, Body := [123, 125] }))
      (fetchedUser.SetStatus "inactive")).1 (.CreateUser [])
      ⟨fetchedUser.SetStatus "inactive",
        NewRequest exampleConn "https://api.box.com/2.0/users" .POST
          (bytesReader (jsonMarshalUser (fetchedUser.SetStatus "inactive").createUserData))⟩
      { ResponseCode := 201, Body := [123, 125] } stubDecoder
      { ID := some "17", SpaceAmount := 5000 } rfl rfl rfl rfl rfl
  exact ⟨by decide, _, r, rfl, hrun, hflag, by rw [hfields], hapi⟩

/-- C7: the status code that each operation accepts is 200 for
GetCurrentUser, GetUser, UpdateUser and GetEnterpriseUsers, 201 for CreateUser
and CreateAppUser, 204 for DeleteUser; and whenever the request is built and
Send succeeds with a response whose status code is any other code, the
operation returns an error and no resource. -/
theorem status_mismatch_is_error (env : Env) (u : User) :
    (∀ fields, (Op.GetCurrentUser fields).successCode = 200) ∧
    (∀ userId fields, (Op.GetUser userId fields).successCode = 200) ∧
    (∀ fields, (Op.CreateUser fields).successCode = 201) ∧
    (∀ userId fields, (Op.UpdateUser userId fields).successCode = 200) ∧
    (∀ fields, (Op.CreateAppUser fields).successCode = 201) ∧
    (∀ userId notify force, (Op.DeleteUser userId notify force).successCode = 204) ∧
    (∀ filterTerm offset limit fields,
      (Op.GetEnterpriseUsers filterTerm offset limit fields).successCode = 200) ∧
    (∀ (op : Op) (call : Call Request) (resp : Response),
      op.request env u = some call → env.Send call.result = .ok resp →
      resp.ResponseCode ≠ op.successCode →
      ∃ err, op.run env u = some ⟨call.receiver, .error err⟩) := by
  refine ⟨fun _ => rfl, fun _ _ => rfl, fun _ => rfl, fun _ _ => rfl, fun _ => rfl,
    fun _ _ _ => rfl, fun _ _ _ _ => rfl, ?_⟩
  intro op call resp hreq hsend hcode
  obtain ⟨receiver, req⟩ := call
  simp only at hsend
  cases op <;> simp only [Op.request] at hreq <;> simp only [Op.successCode] at hcode <;>
    simp [Op.run, User.GetCurrentUser, User.GetUser, User.CreateUser, User.UpdateUser,
      User.CreateAppUser, User.DeleteUser, User.GetEnterpriseUsers, hreq, hsend, hcode,
      Call.returning]

/-- C7, on two responses with another 2xx code: CreateUser answered with 200
and GetUser answered with 201 both return an error. -/
theorem status_mismatch_is_error_witness :
    (∃ err, (Op.CreateUser []).run (stubEnv (.ok { ResponseCode := 200, Body := [123, 125] }))
      fetchedUser = some ⟨fetchedUser, .error err⟩) ∧
    (∃ err, (Op.GetUser "17" []).run (stubEnv (.ok { ResponseCode := 201, Body := [123, 125] }))
      fetchedUser = some ⟨fetchedUser, .error err⟩) :=
  ⟨(status_mismatch_is_error (stubEnv (.ok { ResponseCode := 200, Body := [123, 125] }))
      fetchedUser).2.2.2.2.2.2.2 (.CreateUser [])
      ⟨fetchedUser, NewRequest exampleConn "https://api.box.com/2.0/users" .POST
        (bytesReader (jsonMarshalUser fetchedUser.createUserData))⟩
      { ResponseCode := 200, Body := [123, 125] } rfl rfl (by decide),
   (status_mismatch_is_error (stubEnv (.ok { ResponseCode := 201, Body := [123, 125] }))
      fetchedUser).2.2.2.2.2.2.2 (.GetUser "17" [])
      ⟨fetchedUser, NewRequest exampleConn "https://api.box.com/2.0/users/17" .GET .absent⟩
      { ResponseCode := 201, Body := [123, 125] } rfl rfl (by decide)⟩

/-- C8: for a user with a connection, DeleteUser returns nil if and only if
Send returned a response, not an error, and its status code is 204; for
status 404 it returns an error; and its result depends on the response through
the status code alone, so the body and the decoders are never consulted: any
collaborators whose transport answers with the same status code, whatever the
body, give the same result. -/
theorem deleteUser_nil_iff (env : Env) (u : User) (api : ApiConn) (userId : String)
    (notify force : Bool) (hconn : u.conn = some api) :
    ∃ req, u.DeleteUserReq userId notify force = some ⟨u, req⟩ ∧
      (u.DeleteUser env userId notify force = some ⟨u, .ok ()⟩ ↔
        ∃ resp, env.Send req = .ok resp ∧ resp.ResponseCode = 204) ∧
      (∀ resp, env.Send req = .ok resp → resp.ResponseCode = 404 →
        ∃ err, u.DeleteUser env userId notify force = some ⟨u, .error err⟩) ∧
      (∀ (other : Env) (resp answer : Response), env.Send req = .ok resp →
        other.Send req = .ok answer → resp.ResponseCode = answer.ResponseCode →
        u.DeleteUser other userId notify force = u.DeleteUser env userId notify force) := by
  refine ⟨NewRequest api (api.BaseURL ++ "users/" ++ userId ++ "?notify=" ++ fmtBool notify ++
    "&force=" ++ fmtBool force) .DELETE .absent, by simp only [User.DeleteUserReq, hconn],
    ?_, ?_, ?_⟩
  · constructor
    · intro h
      simp only [User.DeleteUser, User.DeleteUserReq, hconn] at h
      split at h
      · simp at h
      · rename_i resp hresp
        refine ⟨resp, hresp, ?_⟩
        by_contra hne
        simp [StatusNoContent, hne] at h
    · rintro ⟨resp, hresp, hcode⟩
      simp [User.DeleteUser, User.DeleteUserReq, hconn, hresp, hcode, StatusNoContent]
  · intro resp hresp hcode
    exact ⟨.errorsNew "faild to delete user",
      by simp [User.DeleteUser, User.DeleteUserReq, hconn, hresp, hcode, StatusNoContent]⟩
  · intro other resp answer hresp hanswer hcode
    simp [User.DeleteUser, User.DeleteUserReq, hconn, hresp, hanswer, hcode]

/-- C8, on the fetched user: answered with 204 and a body that is not JSON,
DeleteUser returns nil; answered with 404 it returns an error. -/
theorem deleteUser_nil_iff_witness :
    fetchedUser.conn = some exampleConn ∧
    fetchedUser.DeleteUser (stubEnv (.ok { ResponseCode := 204, Body := [60, 33] })) "17"
      true false = some ⟨fetchedUser, .ok ()⟩ ∧
    ∃ err, fetchedUser.DeleteUser (stubEnv (.ok { ResponseCode := 404, Body := [] })) "17"
      true false = some ⟨fetchedUser, .error err⟩ := by
  obtain ⟨req, hreq, hiff, _, _⟩ := deleteUser_nil_iff
    (stubEnv (.ok { ResponseCode := 204, Body := [60, 33] })) fetchedUser exampleConn "17"
    true false rfl
  obtain ⟨_, _, _, hmiss, _⟩ := deleteUser_nil_iff
    (stubEnv (.ok { ResponseCode := 404, Body := [] })) fetchedUser exampleConn "17"
    true false rfl
  exact ⟨rfl, hiff.mpr ⟨_, rfl, rfl⟩, hmiss _ rfl rfl⟩

/-- C9, evaluated: on a user fresh from NewUser, whose IsPlatformAccessOnly
is nil, a CreateAppUser that fails, be it on a transport error or on status
409, leaves the receiver with IsPlatformAccessOnly set to true, hence not as
it was before the call; an UpdateUserReq built later from that receiver sends
is_platform_access_only.  The sibling CreateUser, failing on the same 409,
leaves the receiver as it was. -/
theorem createAppUser_failure_writes_receiver :
    (NewUser (some exampleConn)).IsPlatformAccessOnly = none ∧
    (NewUser (some exampleConn)).CreateAppUser
        (stubEnv (.error (.foreign "net" "connection refused"))) [] =
      some ⟨{ NewUser (some exampleConn) with IsPlatformAccessOnly := some true },
        .error (.foreign "net" "connection refused")⟩ ∧
    (NewUser (some exampleConn)).CreateAppUser
        (stubEnv (.ok { ResponseCode := 409, Body := [123, 125] })) [] =
      some ⟨{ NewUser (some exampleConn) with IsPlatformAccessOnly := some true },
        .error (.errorsNew "faild to create app user")⟩ ∧
    ({ NewUser (some exampleConn) with IsPlatformAccessOnly := some true } : User) ≠
      NewUser (some exampleConn) ∧
    (({ NewUser (some exampleConn) with IsPlatformAccessOnly := some true } : User).UpdateUserReq
        noProjection "17" []).map
      (fun call => call.result.Body.member "is_platform_access_only") =
      some (some (JSON.bool true)) ∧
    (NewUser (some exampleConn)).CreateUser
        (stubEnv (.ok { ResponseCode := 409, Body := [123, 125] })) [] =
      some ⟨NewUser (some exampleConn), .error (.foreign "ApiStatusError" "2")⟩ :=
  ⟨rfl, rfl, rfl, by decide, rfl, rfl⟩

/-- What a failing operation leaves in its receiver: a CreateUser or an
UpdateUser that returns an error leaves the receiver exactly as it was, all
members and changeFlag; a CreateAppUser that returns an error leaves the
receiver as it was but for IsPlatformAccessOnly, which holds true. -/
theorem failed_operation_receiver (env : Env) (u : User) :
    (∀ (fields : List String) (receiver : User) (err : GoError),
      u.CreateUser env fields = some ⟨receiver, .error err⟩ → receiver = u) ∧
    (∀ (userId : String) (fields : List String) (receiver : User) (err : GoError),
      u.UpdateUser env userId fields = some ⟨receiver, .error err⟩ → receiver = u) ∧
    (∀ (fields : List String) (receiver : User) (err : GoError),
      u.CreateAppUser env fields = some ⟨receiver, .error err⟩ →
      receiver = { u with IsPlatformAccessOnly := some true } ∧
        receiver.changeFlag = u.changeFlag) :=
  ⟨fun fields _ _ h => createUser_receiver env u fields _ h,
   fun userId fields _ _ h => updateUser_receiver env u userId fields _ h,
   fun fields _ _ h =>
    ⟨createAppUser_receiver env u fields _ h,
      (congrArg User.changeFlag (createAppUser_receiver env u fields _ h)).trans rfl⟩⟩

/-- On a user with the status bit set: a CreateUser answered with 409 returns
an error and leaves the user as it was; a CreateAppUser answered with 409
returns an error and leaves changeFlag as it was. -/
theorem failed_operation_receiver_witness :
    (fetchedUser.SetStatus "inactive").CreateUser
        (stubEnv (.ok { ResponseCode := 409, Body := [123, 125] })) [] =
      some ⟨fetchedUser.SetStatus "inactive", .error (.foreign "ApiStatusError" "2")⟩ ∧
    (fetchedUser.SetStatus "inactive").CreateAppUser
        (stubEnv (.ok { ResponseCode := 409, Body := [123, 125] })) [] =
      some ⟨{ fetchedUser.SetStatus "inactive" with IsPlatformAccessOnly := some true },
        .error (.errorsNew "faild to create app user")⟩ ∧
    ({ fetchedUser.SetStatus "inactive" with IsPlatformAccessOnly := some true } : User).changeFlag
      = (fetchedUser.SetStatus "inactive").changeFlag :=
  have h := failed_operation_receiver (stubEnv (.ok { ResponseCode := 409, Body := [123, 125] }))
    (fetchedUser.SetStatus "inactive")
  have _hcreate := h.1 [] (fetchedUser.SetStatus "inactive")
    (.foreign "ApiStatusError" "2") rfl
  ⟨rfl, rfl, (h.2.2 [] { fetchedUser.SetStatus "inactive" with IsPlatformAccessOnly := some true }
    (.errorsNew "faild to create app user") rfl).2⟩

/-- C10, evaluated: answered with status 404 and one body, or with status 500
and another body, DeleteUser returns the same error, the fixed text made by
errors.New, which carries neither the status code nor the body; so do
UpdateUser, CreateAppUser and GetEnterpriseUsers, each with its own fixed
text. -/
theorem status_error_forgets_response :
    (fetchedUser.DeleteUser (stubEnv (.ok { ResponseCode := 404, Body := [110, 111] })) "17"
        true false = some ⟨fetchedUser, .error (.errorsNew "faild to delete user")⟩ ∧
      fetchedUser.DeleteUser (stubEnv (.ok { ResponseCode := 500, Body := [33] })) "17"
        true false = some ⟨fetchedUser, .error (.errorsNew "faild to delete user")⟩) ∧
    (fetchedUser.UpdateUser (stubEnv (.ok { ResponseCode := 404, Body := [110, 111] })) "17" []
        = some ⟨fetchedUser, .error (.errorsNew "faild to update user info")⟩ ∧
      fetchedUser.UpdateUser (stubEnv (.ok { ResponseCode := 500, Body := [33] })) "17" []
        = some ⟨fetchedUser, .error (.errorsNew "faild to update user info")⟩) ∧
    (((fetchedUser.CreateAppUser (stubEnv (.ok { ResponseCode := 404, Body := [110, 111] }))
        []).map (fun call => call.result)) =
          some (.error (.errorsNew "faild to create app user")) ∧
      ((fetchedUser.CreateAppUser (stubEnv (.ok { ResponseCode := 500, Body := [33] }))
        []).map (fun call => call.result)) =
          some (.error (.errorsNew "faild to create app user"))) ∧
    (((fetchedUser.GetEnterpriseUsers (stubEnv (.ok { ResponseCode := 404, Body := [110, 111] }))
        "ann" 0 25 []).map (fun call => call.result)) =
          some (.error (.errorsNew "faild to get enterprise users info")) ∧
      ((fetchedUser.GetEnterpriseUsers (stubEnv (.ok { ResponseCode := 500, Body := [33] }))
        "ann" 0 25 []).map (fun call => call.result)) =
          some (.error (.errorsNew "faild to get enterprise users info"))) :=
  ⟨⟨rfl, rfl⟩, ⟨rfl, rfl⟩, ⟨rfl, rfl⟩, ⟨rfl, rfl⟩⟩

/-- C12: for a user with a connection, and every filter term, offset, limit
and projection list, GetEnterpriseUsersReq builds a GET request without body
whose URL is the base URL followed by users?filter_term=, the term, &offset=,
the offset in decimal, &limit=, the limit in decimal, &, and the projection
text; so the text offset=o&limit=l stands in it in one piece right after the
filter parameter; a natural number, 0 included, is rendered by its decimal
digits; and the URL is the same for every receiver with that connection. -/
theorem getEnterpriseUsersReq_url (buildFields : List String → String) (u : User)
    (api : ApiConn) (filterTerm : String) (offset limit : Int) (fields : List String)
    (hconn : u.conn = some api) :
    ∃ req, u.GetEnterpriseUsersReq buildFields filterTerm offset limit fields = some ⟨u, req⟩ ∧
      req.Method = .GET ∧ req.Body.keys = [] ∧
      req.Url = api.BaseURL ++ "users?filter_term=" ++ filterTerm ++ "&offset=" ++
        fmtInt offset ++ "&limit=" ++ fmtInt limit ++ "&" ++ buildFields fields ∧
      req.Url = (api.BaseURL ++ "users?filter_term=" ++ filterTerm ++ "&") ++
        ("offset=" ++ fmtInt offset ++ "&limit=" ++ fmtInt limit) ++
        ("&" ++ buildFields fields) ∧
      (∀ n : Nat, fmtInt (n : Int) = Nat.repr n) ∧ fmtInt 0 = "0" ∧
      (∀ v : User, v.conn = some api →
        (v.GetEnterpriseUsersReq buildFields filterTerm offset limit fields).map
          (fun call => call.result.Url) = some req.Url) := by
  refine ⟨_, getEnterpriseUsersReq_eq buildFields u api filterTerm offset limit fields hconn,
    rfl, rfl, ?_, ?_, fun _ => rfl, rfl, ?_⟩
  · simp only [NewRequest, String.append_assoc]
    rfl
  · simp only [NewRequest, String.append_assoc]
    rfl
  · intro v hv
    rw [getEnterpriseUsersReq_eq buildFields v api filterTerm offset limit fields hv]
    rfl

/-- C12, on the fetched user: filter term ann, offset 0 and limit 25 with no
projection give the URL ending in users?filter_term=ann&offset=0&limit=25&. -/
theorem getEnterpriseUsersReq_url_witness :
    fetchedUser.conn = some exampleConn ∧
    (fetchedUser.GetEnterpriseUsersReq noProjection "ann" 0 25 []).map
      (fun call => call.result.Url) =
      some "https://api.box.com/2.0/users?filter_term=ann&offset=0&limit=25&" := by
  obtain ⟨req, hreq, _, _, hurl, _⟩ :=
    getEnterpriseUsersReq_url noProjection fetchedUser exampleConn "ann" 0 25 [] rfl
  refine ⟨rfl, ?_⟩
  rw [hreq]
  simp only [Option.map_some', hurl]
  decide

/-- C13: assuming that BuildFieldsQueryParams gives the empty text for the
empty list and otherwise fields= followed by the names joined by commas in
order, each of the six builders that take a projection list, on a user with a
connection, yields for the empty list a URL to which no projection text is
added, and for a list that is not empty a URL that ends in fields= followed by
the names joined by commas in the order given. -/
theorem builders_fields_parameter (buildFields : List String → String) (u : User)
    (api : ApiConn) (fields : List String)
    (hempty : buildFields [] = "")
    (hjoin : ∀ names : List String, names ≠ [] →
      buildFields names = "fields=" ++ ",".intercalate names)
    (hconn : u.conn = some api) :
    ((u.GetCurrentUserReq buildFields []).map (fun call => call.result.Url) =
        some (api.BaseURL ++ "users/me") ∧
      (fields ≠ [] → (u.GetCurrentUserReq buildFields fields).map (fun call => call.result.Url) =
        some (api.BaseURL ++ "users/me" ++ "?" ++ "fields=" ++ ",".intercalate fields))) ∧
    (∀ userId : String,
      (u.GetUserReq buildFields userId []).map (fun call => call.result.Url) =
        some (api.BaseURL ++ "users/" ++ userId) ∧
      (fields ≠ [] → (u.GetUserReq buildFields userId fields).map (fun call => call.result.Url) =
        some (api.BaseURL ++ "users/" ++ userId ++ "?" ++ "fields=" ++
          ",".intercalate fields))) ∧
    ((u.CreateUserReq buildFields []).map (fun call => call.result.Url) =
        some (api.BaseURL ++ "users") ∧
      (fields ≠ [] → (u.CreateUserReq buildFields fields).map (fun call => call.result.Url) =
        some (api.BaseURL ++ "users" ++ "?" ++ "fields=" ++ ",".intercalate fields))) ∧
    (∀ userId : String,
      (u.UpdateUserReq buildFields userId []).map (fun call => call.result.Url) =
        some (api.BaseURL ++ "users/" ++ userId ++ "?") ∧
      (fields ≠ [] →
        (u.UpdateUserReq buildFields userId fields).map (fun call => call.result.Url) =
        some (api.BaseURL ++ "users/" ++ userId ++ "?" ++ "fields=" ++
          ",".intercalate fields))) ∧
    ((u.CreateAppUserReq buildFields []).map (fun call => call.result.Url) =
        some (api.BaseURL ++ "users/" ++ "?") ∧
      (fields ≠ [] → (u.CreateAppUserReq buildFields fields).map (fun call => call.result.Url) =
        some (api.BaseURL ++ "users/" ++ "?" ++ "fields=" ++ ",".intercalate fields))) ∧
    (∀ (filterTerm : String) (offset limit : Int),
      (u.GetEnterpriseUsersReq buildFields filterTerm offset limit []).map
          (fun call => call.result.Url) =
        some (api.BaseURL ++ "users" ++ "?filter_term=" ++ filterTerm ++ "&offset=" ++
          fmtInt offset ++ "&limit=" ++ fmtInt limit ++ "&") ∧
      (fields ≠ [] →
        (u.GetEnterpriseUsersReq buildFields filterTerm offset limit fields).map
          (fun call => call.result.Url) =
        some (api.BaseURL ++ "users" ++ "?filter_term=" ++ filterTerm ++ "&offset=" ++
          fmtInt offset ++ "&limit=" ++ fmtInt limit ++ "&" ++ "fields=" ++
          ",".intercalate fields))) := by
  have hsome : ∀ names : List String, names ≠ [] →
      optionalQuery (buildFields names) = "?" ++ ("fields=" ++ ",".intercalate names) := by
    intro names hne
    have hne' : ("fields=" ++ ",".intercalate names) ≠ "" := by
      intro h
      have hlen := congrArg String.length h
      simp only [String.length_append] at hlen
      have hpos : 0 < "fields=".length := by decide
      have hzero : ("" : String).length = 0 := rfl
      omega
    simp only [optionalQuery, hjoin names hne, if_pos hne']
  have hnone : optionalQuery (buildFields []) = "" := by
    simp [optionalQuery, hempty]
  refine ⟨⟨?_, fun hne => ?_⟩, fun userId => ⟨?_, fun hne => ?_⟩, ⟨?_, fun hne => ?_⟩,
    fun userId => ⟨?_, fun hne => ?_⟩, ⟨?_, fun hne => ?_⟩,
    fun filterTerm offset limit => ⟨?_, fun hne => ?_⟩⟩
  · simp only [getCurrentUserReq_eq _ u api _ hconn, Option.map_some', NewRequest, hnone,
      String.append_empty]
  · simp only [getCurrentUserReq_eq _ u api _ hconn, Option.map_some', NewRequest,
      hsome fields hne, String.append_assoc]
  · simp only [getUserReq_eq _ u api _ _ hconn, Option.map_some', NewRequest, hnone,
      String.append_empty]
  · simp only [getUserReq_eq _ u api _ _ hconn, Option.map_some', NewRequest,
      hsome fields hne, String.append_assoc]
  · simp only [createUserReq_eq _ u api _ hconn, Option.map_some', NewRequest, hnone,
      String.append_empty]
  · simp only [createUserReq_eq _ u api _ hconn, Option.map_some', NewRequest,
      hsome fields hne, String.append_assoc]
  · simp only [updateUserReq_eq _ u api _ _ hconn, Option.map_some', NewRequest, hempty,
      String.append_empty]
  · simp only [updateUserReq_eq _ u api _ _ hconn, Option.map_some', NewRequest,
      hjoin fields hne, String.append_assoc]
  · simp only [createAppUserReq_eq _ u api _ hconn, Option.map_some', NewRequest, hempty,
      String.append_empty]
  · simp only [createAppUserReq_eq _ u api _ hconn, Option.map_some', NewRequest,
      hjoin fields hne, String.append_assoc]
  · simp only [getEnterpriseUsersReq_eq _ u api _ _ _ _ hconn, Option.map_some', NewRequest,
      hempty, String.append_empty]
  · simp only [getEnterpriseUsersReq_eq _ u api _ _ _ _ hconn, Option.map_some', NewRequest,
      hjoin fields hne, String.append_assoc]

/-- C13, on the fetched user with the projection of the spec: the list of id
and name gives the URL of GetUserReq ending in ?fields=id,name, and the empty
list gives the bare path. -/
theorem builders_fields_parameter_witness :
    specBuildFields [] = "" ∧ fetchedUser.conn = some exampleConn ∧
    (fetchedUser.GetUserReq specBuildFields "17" []).map (fun call => call.result.Url) =
      some "https://api.box.com/2.0/users/17" ∧
    (fetchedUser.GetUserReq specBuildFields "17" ["id", "name"]).map
      (fun call => call.result.Url) = some "https://api.box.com/2.0/users/17?fields=id,name" := by
  have h := (builders_fields_parameter specBuildFields fetchedUser exampleConn ["id", "name"]
    rfl (fun names hne => by simp [specBuildFields, hne]) rfl).2.1 "17"
  refine ⟨rfl, rfl, ?_, ?_⟩
  · rw [h.1]; decide
  · rw [h.2 (by simp)]; decide

/-- C14: for a user with a connection, every user id and every pair of
booleans, DeleteUserReq builds a DELETE request with no body whose URL is the
base URL followed by users/, the id, ?notify=, the first flag, &force= and the
second flag, each flag written as the text true or false. -/
theorem deleteUserReq_url (u : User) (api : ApiConn) (userId : String) (notify force : Bool)
    (hconn : u.conn = some api) :
    ∃ req, u.DeleteUserReq userId notify force = some ⟨u, req⟩ ∧
      req.Method = .DELETE ∧ req.Body = .absent ∧ req.Body.keys = [] ∧
      req.Body.member = (fun _ => none) ∧
      req.Url = api.BaseURL ++ "users/" ++ userId ++ "?notify=" ++
        (if notify then "true" else "false") ++ "&force=" ++
        (if force then "true" else "false") := by
  refine ⟨_, deleteUserReq_eq u api userId notify force hconn, rfl, rfl, rfl, rfl, rfl⟩

/-- C14, on the fetched user: id 17 with notify true and force false gives
the URL ending in users/17?notify=true&force=false. -/
theorem deleteUserReq_url_witness :
    fetchedUser.conn = some exampleConn ∧
    (fetchedUser.DeleteUserReq "17" true false).map (fun call => call.result.Url) =
      some "https://api.box.com/2.0/users/17?notify=true&force=false" := by
  obtain ⟨req, hreq, _, _, _, _, hurl⟩ :=
    deleteUserReq_url fetchedUser exampleConn "17" true false rfl
  refine ⟨rfl, ?_⟩
  rw [hreq]
  simp only [Option.map_some', hurl]
  decide

/-- C19: on a user with a connection, the URL of GetCurrentUserReq, GetUserReq
and CreateUserReq is the path alone when the projection text is empty and the
path, a question mark and the projection text otherwise, so that, the path
holding no question mark of its own, the URL contains a question mark if and
only if the projection text is not empty; the URL of UpdateUserReq and of
CreateAppUserReq is always the path, a question mark and the projection text,
and the URL of GetEnterpriseUsersReq always ends in an ampersand and the
projection text, so with an empty projection text they end in the question
mark and in the ampersand. -/
theorem query_separator_placement (buildFields : List String → String) (u : User)
    (api : ApiConn) (fields : List String) (hconn : u.conn = some api) :
    (∃ req, u.GetCurrentUserReq buildFields fields = some ⟨u, req⟩ ∧
      req.Url = api.BaseURL ++ "users/me" ++
        (if buildFields fields = "" then "" else "?" ++ buildFields fields) ∧
      (buildFields fields = "" → req.Url = api.BaseURL ++ "users/me") ∧
      (questionMark ∉ (api.BaseURL ++ "users/me").toList →
        (questionMark ∈ req.Url.toList ↔ buildFields fields ≠ ""))) ∧
    (∀ userId : String, ∃ req, u.GetUserReq buildFields userId fields = some ⟨u, req⟩ ∧
      req.Url = api.BaseURL ++ "users/" ++ userId ++
        (if buildFields fields = "" then "" else "?" ++ buildFields fields) ∧
      (buildFields fields = "" → req.Url = api.BaseURL ++ "users/" ++ userId) ∧
      (questionMark ∉ (api.BaseURL ++ "users/" ++ userId).toList →
        (questionMark ∈ req.Url.toList ↔ buildFields fields ≠ ""))) ∧
    (∃ req, u.CreateUserReq buildFields fields = some ⟨u, req⟩ ∧
      req.Url = api.BaseURL ++ "users" ++
        (if buildFields fields = "" then "" else "?" ++ buildFields fields) ∧
      (buildFields fields = "" → req.Url = api.BaseURL ++ "users") ∧
      (questionMark ∉ (api.BaseURL ++ "users").toList →
        (questionMark ∈ req.Url.toList ↔ buildFields fields ≠ ""))) ∧
    (∀ userId : String, ∃ req, u.UpdateUserReq buildFields userId fields = some ⟨u, req⟩ ∧
      req.Url = api.BaseURL ++ "users/" ++ userId ++ "?" ++ buildFields fields ∧
      (buildFields fields = "" → req.Url = api.BaseURL ++ "users/" ++ userId ++ "?")) ∧
    (∃ receiver req, u.CreateAppUserReq buildFields fields = some ⟨receiver, req⟩ ∧
      req.Url = api.BaseURL ++ "users/" ++ "?" ++ buildFields fields ∧
      (buildFields fields = "" → req.Url = api.BaseURL ++ "users/" ++ "?")) ∧
    (∀ (filterTerm : String) (offset limit : Int), ∃ req,
      u.GetEnterpriseUsersReq buildFields filterTerm offset limit fields = some ⟨u, req⟩ ∧
      req.Url = api.BaseURL ++ "users" ++ "?filter_term=" ++ filterTerm ++ "&offset=" ++
        fmtInt offset ++ "&limit=" ++ fmtInt limit ++ "&" ++ buildFields fields ∧
      (buildFields fields = "" →
        req.Url = api.BaseURL ++ "users" ++ "?filter_term=" ++ filterTerm ++ "&offset=" ++
          fmtInt offset ++ "&limit=" ++ fmtInt limit ++ "&")) := by
  have hquery : optionalQuery (buildFields fields) =
      (if buildFields fields = "" then "" else "?" ++ buildFields fields) := by
    by_cases hp : buildFields fields = ""
    · rw [hp]; rfl
    · rw [optionalQuery_of_ne _ hp, if_neg hp]
  refine ⟨⟨_, getCurrentUserReq_eq buildFields u api fields hconn, ?_, ?_, ?_⟩,
    fun userId => ⟨_, getUserReq_eq buildFields u api userId fields hconn, ?_, ?_, ?_⟩,
    ⟨_, createUserReq_eq buildFields u api fields hconn, ?_, ?_, ?_⟩,
    fun userId => ⟨_, updateUserReq_eq buildFields u api userId fields hconn, rfl, ?_⟩,
    ⟨_, _, createAppUserReq_eq buildFields u api fields hconn, rfl, ?_⟩,
    fun filterTerm offset limit =>
      ⟨_, getEnterpriseUsersReq_eq buildFields u api filterTerm offset limit fields hconn,
        rfl, ?_⟩⟩
  · simp only [NewRequest, hquery]
  · intro hp
    simp only [NewRequest, hp, optionalQuery_empty, String.append_empty]
  · exact fun hpath => mem_path_optionalQuery _ _ hpath
  · simp only [NewRequest, hquery]
  · intro hp
    simp only [NewRequest, hp, optionalQuery_empty, String.append_empty]
  · exact fun hpath => mem_path_optionalQuery _ _ hpath
  · simp only [NewRequest, hquery]
  · intro hp
    simp only [NewRequest, hp, optionalQuery_empty, String.append_empty]
  · exact fun hpath => mem_path_optionalQuery _ _ hpath
  · intro hp
    simp only [NewRequest, hp, String.append_empty]
  · intro hp
    simp only [NewRequest, hp, String.append_empty]
  · intro hp
    simp only [NewRequest, hp, String.append_empty]

/-- C19, on the fetched user with no projection: GetUserReq gives the bare
path, which holds no question mark, UpdateUserReq gives a URL ending in the
question mark, and GetEnterpriseUsersReq gives a URL ending in the
ampersand. -/
theorem query_separator_placement_witness :
    fetchedUser.conn = some exampleConn ∧
    (∃ req, fetchedUser.GetUserReq noProjection "17" [] = some ⟨fetchedUser, req⟩ ∧
      req.Url = "https://api.box.com/2.0/users/17" ∧ questionMark ∉ req.Url.toList) ∧
    (∃ req, fetchedUser.UpdateUserReq noProjection "17" [] = some ⟨fetchedUser, req⟩ ∧
      req.Url = "https://api.box.com/2.0/users/17?") ∧
    (∃ req, fetchedUser.GetEnterpriseUsersReq noProjection "ann" 0 25 [] =
        some ⟨fetchedUser, req⟩ ∧
      req.Url = "https://api.box.com/2.0/users?filter_term=ann&offset=0&limit=25&") := by
  have h := query_separator_placement noProjection fetchedUser exampleConn [] rfl
  obtain ⟨r1, h1, _, hbare, hiff⟩ := h.2.1 "17"
  obtain ⟨r2, h2, _, hq⟩ := h.2.2.2.1 "17"
  obtain ⟨r3, h3, _, ha⟩ := h.2.2.2.2.2 "ann" 0 25
  refine ⟨rfl, ⟨r1, h1, ?_, ?_⟩, ⟨r2, h2, ?_⟩, ⟨r3, h3, ?_⟩⟩
  · rw [hbare rfl]; decide
  · intro hmem
    exact ((hiff (by decide)).mp hmem) rfl
  · rw [hq rfl]; decide
  · rw [ha rfl]; decide

/-- C17: the seventeen change-bit constants, cUserName first and
cUserIsPlatformAccessOnly last, are the powers of two from 2^0 to 2^16 in the
order of their declaration; they are pairwise distinct and all below 2^64;
each has one bit set, the bit of its position; and the test that the code
makes with a constant, changeFlag and c equal to c, holds exactly when that
bit is set in changeFlag. -/
theorem changeBits_powers_of_two :
    changeBits = (List.range 17).map (fun k => 2 ^ k) ∧
    changeBits.head? = some cUserName ∧ changeBits.getLast? = some cUserIsPlatformAccessOnly ∧
    changeBits.Nodup ∧ (∀ c ∈ changeBits, c < 2 ^ 64) ∧
    (∀ k, k < 17 → ∃ c, changeBits[k]? = some c ∧ c = 2 ^ k ∧
      (∀ i, c.testBit i = decide (k = i)) ∧
      (∀ changeFlag : Nat, changeFlag &&& c = c ↔ changeFlag.testBit k = true)) := by
  have hlist : changeBits = (List.range 17).map (fun k => 2 ^ k) := by decide
  refine ⟨hlist, rfl, rfl, by decide, by decide, ?_⟩
  intro k hk
  refine ⟨2 ^ k, ?_, rfl, fun i => Nat.testBit_two_pow, fun flag => land_two_pow_eq_iff flag k⟩
  rw [hlist, List.getElem?_map, List.getElem?_range hk]
  rfl

/-- C17, at the status bit: it is the fifteenth constant, 2^14, and a
changeFlag of 2^14 + 1 passes its test. -/
theorem changeBits_powers_of_two_witness :
    changeBits[14]? = some cUserStatus ∧ cUserStatus = 2 ^ 14 ∧
    (16385 &&& cUserStatus = cUserStatus ↔ Nat.testBit 16385 14 = true) := by
  obtain ⟨c, hc, hpow, _, htest⟩ := changeBits_powers_of_two.2.2.2.2.2 14 (by decide)
  have hstatus : cUserStatus = 2 ^ 14 := rfl
  refine ⟨rfl, hstatus, ?_⟩
  rw [hstatus, ← hpow]
  exact htest 16385

/-- C18: on a user with a connection, CreateAppUserReq leaves the receiver as
it was but for IsPlatformAccessOnly, which holds true whatever it held before;
changeFlag is unchanged, so the test of the bit cUserIsPlatformAccessOnly gives
what it gave before; and the body is the encoding of the whole receiver after
that write, the same whatever changeFlag holds. -/
theorem createAppUserReq_writes_receiver (buildFields : List String → String) (u : User)
    (api : ApiConn) (fields : List String) (hconn : u.conn = some api) :
    ∃ call, u.CreateAppUserReq buildFields fields = some call ∧
      call.receiver = { u with IsPlatformAccessOnly := some true } ∧
      call.receiver.IsPlatformAccessOnly = some true ∧
      call.receiver.changeFlag = u.changeFlag ∧
      (call.receiver.changeFlag &&& cUserIsPlatformAccessOnly = cUserIsPlatformAccessOnly ↔
        u.changeFlag &&& cUserIsPlatformAccessOnly = cUserIsPlatformAccessOnly) ∧
      call.result.Body = bytesReader (jsonMarshalUser call.receiver) ∧
      (∀ flag : Nat, ∃ other,
        ({ u with changeFlag := flag } : User).CreateAppUserReq buildFields fields = some other ∧
        other.result.Body = call.result.Body) := by
  refine ⟨_, createAppUserReq_eq buildFields u api fields hconn, rfl, rfl, rfl, Iff.rfl, rfl,
    fun flag => ⟨_, createAppUserReq_eq buildFields _ api fields ?_, rfl⟩⟩
  simpa [User.conn] using hconn

/-- C18, on the fetched user, whose changeFlag is 0 and whose
IsPlatformAccessOnly is nil: after CreateAppUserReq the receiver holds true
there, changeFlag is still 0, and the body carries the members that were
never set through a setter together with is_platform_access_only. -/
theorem createAppUserReq_writes_receiver_witness :
    fetchedUser.conn = some exampleConn ∧ fetchedUser.IsPlatformAccessOnly = none ∧
    ∃ call, fetchedUser.CreateAppUserReq noProjection [] = some call ∧
      call.receiver.IsPlatformAccessOnly = some true ∧ call.receiver.changeFlag = 0 ∧
      call.result.Body.keys = ["id", "name", "login", "language", "timezone", "space_amount",
        "status", "phone", "role", "hostname", "is_platform_access_only"] := by
  obtain ⟨call, hcall, hrecv, htrue, hflag, _, hbody, _⟩ :=
    createAppUserReq_writes_receiver noProjection fetchedUser exampleConn [] rfl
  refine ⟨rfl, rfl, call, hcall, htrue, hflag, ?_⟩
  rw [hbody, hrecv]
  decide

/-- C15: on a user with a connection, when Send answers the request of
GetEnterpriseUsersReq with status 200 and the body decodes to an envelope with
total count t, offset o, limit l and the users e1 to en as entries,
GetEnterpriseUsers returns, with no error, the n users in the same order, each
with the decoded members, changeFlag 0 and the receiver's connection, together
with o, l and t. -/
theorem getEnterpriseUsers_page (env : Env) (u : User) (api : ApiConn) (filterTerm : String)
    (offset limit : Int) (fields : List String) (call : Call Request) (resp : Response)
    (page : UsersPage) (entries : List UserFields)
    (hconn : u.conn = some api)
    (hreq : u.GetEnterpriseUsersReq env.BuildFieldsQueryParams filterTerm offset limit fields
      = some call)
    (hsend : env.Send call.result = .ok resp) (hcode : resp.ResponseCode = 200)
    (hdec : env.jsonUnmarshalUsers resp.Body = .ok page)
    (hentries : page.Entries = entries.map some) :
    u.GetEnterpriseUsers env filterTerm offset limit fields =
      some ⟨u, .ok ⟨entries.map (fun e =>
          { toUserFields := e, apiInfo := some { api := some api }, changeFlag := 0 }),
        page.Offset, page.Limit, page.TotalCount⟩⟩ := by
  obtain ⟨info, hinfo, hapi⟩ := conn_some u api hconn
  rw [getEnterpriseUsersReq_eq _ u api _ _ _ _ hconn] at hreq
  simp only [Option.some.injEq] at hreq
  subst hreq
  simp only at hsend
  have hloop := attachApiInfo_map u info hinfo entries
  rw [hapi] at hloop
  simp only [User.GetEnterpriseUsers, getEnterpriseUsersReq_eq _ u api _ _ _ _ hconn, hsend,
    hcode, StatusOK, ne_eq, not_true_eq_false, if_false, hdec, hentries, List.map_map]
  have hcomp : (Option.map (fun decoded : UserFields => ({ toUserFields := decoded } : User)) ∘
      some) = fun e => some ({ toUserFields := e } : User) := rfl
  rw [hcomp, hloop]

/-- C15, the scenario of the spec: a page of 25 entries out of 150 at offset
0 with limit 25 gives 25 users, 0, 25 and 150, each user with the connection
of the receiver. -/
theorem getEnterpriseUsers_page_witness :
    ∃ users, fetchedUser.GetEnterpriseUsers
        { stubEnv (.ok { ResponseCode := 200, Body := [123, 125] }) with
          jsonUnmarshalUsers := fun _ => .ok examplePage } "ann" 0 25 [] =
        some ⟨fetchedUser, .ok ⟨users, 0, 25, 150⟩⟩ ∧
      users.length = 25 ∧
      ∀ r ∈ users, r.apiInfo = some { api := some exampleConn } ∧ r.changeFlag = 0 := by
  refine ⟨_, getEnterpriseUsers_page
    { stubEnv (.ok { ResponseCode := 200, Body := [123, 125] }) with
      jsonUnmarshalUsers := fun _ => .ok examplePage }
    fetchedUser exampleConn "ann" 0 25 []
    ⟨fetchedUser, NewRequest exampleConn
      "https://api.box.com/2.0/users?filter_term=ann&offset=0&limit=25&" .GET .absent⟩
    { ResponseCode := 200, Body := [123, 125] } examplePage
    (List.replicate 25 { Language := some "en" }) rfl rfl rfl rfl rfl rfl, ?_, ?_⟩
  · simp
  · intro r hr
    simp only [List.mem_map] at hr
    obtain ⟨e, _, rfl⟩ := hr
    exact ⟨rfl, rfl⟩

/-- C16: no method clears a change bit.  A setter call leaves every bit that
was set in changeFlag set; a second call of the same setter, with whatever
argument, leaves changeFlag as the first call left it; and every request
builder and every operation, whatever its outcome, leaves changeFlag of the
receiver equal to what it was, so every bit that was set is still set. -/
theorem changeFlag_never_cleared (env : Env) (u : User) :
    (∀ (c : SetterCall) (k : Nat), u.changeFlag.testBit k = true →
      (c.apply u).changeFlag.testBit k = true) ∧
    (∀ c d : SetterCall, c.setterName = d.setterName →
      (d.apply (c.apply u)).changeFlag = (c.apply u).changeFlag) ∧
    (∀ (op : Op) (call : Call Request), op.request env u = some call →
      call.receiver.changeFlag = u.changeFlag ∧
      ∀ k, u.changeFlag.testBit k = true → call.receiver.changeFlag.testBit k = true) ∧
    (∀ (op : Op) (outcome : Call (Except GoError Returned)), op.run env u = some outcome →
      outcome.receiver.changeFlag = u.changeFlag ∧
      ∀ k, u.changeFlag.testBit k = true → outcome.receiver.changeFlag.testBit k = true) := by
  refine ⟨?_, ?_, ?_, ?_⟩
  · intro c k hk
    rw [apply_changeFlag, Nat.testBit_or, hk, Bool.true_or]
  · intro c d hname
    rw [apply_changeFlag, apply_changeFlag, ← mask_eq_of_setterName c d hname, Nat.lor_assoc]
    congr 1
    apply Nat.eq_of_testBit_eq
    intro i
    rw [Nat.testBit_or, Bool.or_self]
  · intro op call h
    have hflag : call.receiver.changeFlag = u.changeFlag := by
      rcases request_receiver env u op call h with hr | hr <;> rw [hr]
    exact ⟨hflag, fun k hk => by rw [hflag]; exact hk⟩
  · intro op outcome h
    have hflag : outcome.receiver.changeFlag = u.changeFlag := by
      rcases run_receiver env u op outcome h with hr | hr <;> rw [hr]
    exact ⟨hflag, fun k hk => by rw [hflag]; exact hk⟩

/-- C16, on the fetched user after SetStatus: a second SetStatus with another
value leaves changeFlag as it was, and a CreateAppUser that fails on the
transport leaves the status bit set. -/
theorem changeFlag_never_cleared_witness :
    (((fetchedUser.SetStatus "inactive").SetStatus "active").changeFlag =
      (fetchedUser.SetStatus "inactive").changeFlag) ∧
    ∃ outcome, (Op.CreateAppUser []).run (stubEnv (.error (.foreign "net" "timeout")))
        (fetchedUser.SetStatus "inactive") = some outcome ∧
      outcome.receiver.changeFlag.testBit 14 = true := by
  have hset := (changeFlag_never_cleared (stubEnv (.error (.foreign "net" "timeout")))
    fetchedUser).2.1 (.SetStatus "inactive") (.SetStatus "active") rfl
  have hrun := (changeFlag_never_cleared (stubEnv (.error (.foreign "net" "timeout")))
    (fetchedUser.SetStatus "inactive")).2.2.2 (.CreateAppUser []) _ rfl
  exact ⟨hset, _, rfl, hrun.2 14 (by decide)⟩

/-- C11: whenever the request is built and Send returns an error e, every
one of the seven operations returns e itself and no resource (a nil user; for
the list the nil slice and 0 for offset, limit and total), and the transport
is left in the state in which that one call of Send left it: Send has been
called once, on the request that was built, and never again.  The same holds
for the form of the operations without state. -/
theorem transport_error_propagates {σ : Type} (env : Env) (t : Transport σ) (u : User)
    (op : Op) (call : Call Request) (s after : σ) (e : GoError)
    (hreq : op.request env u = some call) :
    (t.Send call.result s = (.error e, after) →
      op.runVia env t u s = some (⟨call.receiver, op.givingUp e⟩, after)) ∧
    (env.Send call.result = .error e → op.run env u = some ⟨call.receiver, .error e⟩) := by
  obtain ⟨receiver, req⟩ := call
  constructor
  · intro hsend
    simp only at hsend
    cases op <;> simp only [Op.request] at hreq <;>
      simp [Op.runVia, User.GetCurrentUserVia, User.GetUserVia, User.CreateUserVia,
        User.UpdateUserVia, User.CreateAppUserVia, User.DeleteUserVia,
        User.GetEnterpriseUsersVia, hreq, hsend, viaReturn, Op.givingUp]
  · intro hsend
    simp only at hsend
    cases op <;> simp only [Op.request] at hreq <;>
      simp [Op.run, User.GetCurrentUser, User.GetUser, User.CreateUser, User.UpdateUser,
        User.CreateAppUser, User.DeleteUser, User.GetEnterpriseUsers, hreq, hsend,
        Call.returning]

/-- C11, over a transport that refuses every request and logs it: CreateUser
on the fetched user returns the error of the transport and a nil user, and the
log holds one request, the POST to the users URL; GetEnterpriseUsers returns
the error with the nil slice and three zeros, after one request as well. -/
theorem transport_error_propagates_witness :
    ((Op.CreateUser []).runVia (stubEnv (.error (.foreign "net" "connection refused")))
        (loggingTransport (.error (.foreign "net" "connection refused"))) fetchedUser []).map
      (fun x => (x.1.receiver, x.2.map (fun req => (req.Method, req.Url)),
        match x.1.result with
        | .user r => r.user.isNone && (r.err == some (.foreign "net" "connection refused"))
        | _ => false)) =
      some (fetchedUser, [(Method.POST, "https://api.box.com/2.0/users")], true) ∧
    ((Op.GetEnterpriseUsers "ann" 0 25 []).runVia
        (stubEnv (.error (.foreign "net" "connection refused")))
        (loggingTransport (.error (.foreign "net" "connection refused"))) fetchedUser []).map
      (fun x => (x.2.length,
        match x.1.result with
        | .users r => (r.outUsers.length, r.outOffset, r.outLimit, r.outTotalCount, r.err)
        | _ => (1, 1, 1, 1, none))) =
      some (1, 0, 0, 0, 0, some (.foreign "net" "connection refused")) := by
  have hcreate := (transport_error_propagates
    (stubEnv (.error (.foreign "net" "connection refused")))
    (loggingTransport (.error (.foreign "net" "connection refused"))) fetchedUser
    (.CreateUser [])
    ⟨fetchedUser, NewRequest exampleConn "https://api.box.com/2.0/users" .POST
      (bytesReader (jsonMarshalUser fetchedUser.createUserData))⟩
    [] _ (.foreign "net" "connection refused") rfl).1 rfl
  have hlist := (transport_error_propagates
    (stubEnv (.error (.foreign "net" "connection refused")))
    (loggingTransport (.error (.foreign "net" "connection refused"))) fetchedUser
    (.GetEnterpriseUsers "ann" 0 25 [])
    ⟨fetchedUser, NewRequest exampleConn
      "https://api.box.com/2.0/users?filter_term=ann&offset=0&limit=25&" .GET .absent⟩
    [] _ (.foreign "net" "connection refused") rfl).1 rfl
  rw [hcreate, hlist]
  exact ⟨rfl, rfl⟩

end Goboxer
